import Mathlib

/-!
Verification of the illustration generation & placement engine of the
`reader3` repository (`illustration_generator.py`), as a shallow embedding
in Lean 4.

Modelling conventions:
* Python strings are Lean `String`s; Python `str` helpers (`strip`, `split`,
  `lower`, substring `in`) are re-implemented below by structural recursion
  over the character list so that all definitions reduce in the kernel.
  (`lower`/`isalnum`/whitespace are modelled at ASCII granularity, which is
  what every string appearing in the program and in the claims uses.)
* The per-book JSON metadata document `generated_images.json` is modelled as
  an association list keyed by chapter index (the source keys the JSON
  object by `str(chapter_index)`, and `str` is injective on indices, so a
  `Nat`-keyed map is observationally equivalent).  The file system is a
  record holding the (optional) parsed document plus the set of image files
  currently existing on disk.
* The two external Gemini services are oracles supplied as an `Env` value:
  the scene-summarisation call yields either a transport error, a malformed
  (unparsable-JSON) response, or a parsed list of scene dictionaries; the
  image call is a function from the number of image calls made so far in the
  run to an image outcome.  Every invocation of a service counts as one
  external call.
* Python `/` on ints produces IEEE-754 binary64 floats. The fallback index
  `int((fallback_percent / 100) * len(paragraphs))` is therefore modelled by
  an executable binary64 model (`DblF`) implementing round-to-nearest,
  ties-to-even on exact rationals, so float-sensitive behaviour is captured
  faithfully.
-/

namespace Reader3

/-! ### Python string primitives -/

/-- Python `c.lower()` on ASCII letters (all strings in the program are ASCII). -/
def lowerChar (c : Char) : Char :=
  if 'A' ≤ c ∧ c ≤ 'Z' then Char.ofNat (c.toNat + 32) else c

/-- Python `s.lower()`. -/
def lowerStr (s : String) : String :=
  ⟨s.data.map lowerChar⟩

/-- Is `pat` a leading segment of `s`? (helper for substring search). -/
def leadsWith : List Char → List Char → Bool
  | [], _ => true
  | _ :: _, [] => false
  | a :: as, b :: bs => a = b && leadsWith as bs

/-- Does `pat` occur contiguously in `s`? (Python `pat in s`; the empty
pattern occurs in every string, as in Python). -/
def occursIn (pat : List Char) : List Char → Bool
  | [] => pat.isEmpty
  | s@(_ :: rest) => leadsWith pat s || occursIn pat rest

/-- Python `pat in hay` for strings. -/
def containsSub (hay pat : String) : Bool :=
  occursIn pat.data hay.data

/-- Python `str.strip()` with no argument (trim leading/trailing whitespace). -/
def pyStrip (s : String) : String :=
  ⟨((s.data.dropWhile Char.isWhitespace).reverse.dropWhile Char.isWhitespace).reverse⟩

/-- The emptiness test `not chapter_text or len(chapter_text.strip()) == 0`. -/
def pyBlank (s : String) : Bool :=
  s = "" || pyStrip s = ""

/-- Python `s.split()` (split on whitespace runs, dropping empty pieces),
accumulating the current word in reverse. -/
def wordsAux : List Char → List Char → List (List Char)
  | [], acc => if acc.isEmpty then [] else [acc.reverse]
  | c :: rest, acc =>
    if c.isWhitespace then
      if acc.isEmpty then wordsAux rest [] else acc.reverse :: wordsAux rest []
    else wordsAux rest (c :: acc)

/-- Join word lists with single spaces. -/
def joinSpace : List (List Char) → List Char
  | [] => []
  | [w] => w
  | w :: ws => w ++ ' ' :: joinSpace ws

/-- Python `' '.join(s.split())`: whitespace normalisation of the anchor. -/
def normWs (s : String) : String :=
  ⟨joinSpace (wordsAux s.data [])⟩

/-! ### `sanitize_chapter_title` -/

/-- Character classification of the sanitiser's first pass:
keep alphanumerics, space, hyphen, underscore; drop listed punctuation;
replace anything else by an underscore. -/
def sanitizeChar (c : Char) : Option Char :=
  if c.isAlphanum || c = ' ' || c = '-' || c = '_' then some c
  else if c ∈ ['.', ',', ':', ';', '!', '?', '\'', '"'] then none
  else some '_'

/-- `re.sub(r'[\s_]+', '_', s)`: collapse each run of whitespace/underscores
into a single underscore.  The Boolean records whether the previous kept
character belonged to such a run. -/
def collapseRuns : List Char → Bool → List Char
  | [], _ => []
  | c :: rest, prev =>
    if c.isWhitespace || c = '_' then
      if prev then collapseRuns rest true else '_' :: collapseRuns rest true
    else c :: collapseRuns rest false

/-- Python `s.strip('_')`. -/
def stripUnderscores (l : List Char) : List Char :=
  ((l.dropWhile (· = '_')).reverse.dropWhile (· = '_')).reverse

/-- Python `s.rstrip('_')`. -/
def rstripUnderscores (l : List Char) : List Char :=
  (l.reverse.dropWhile (· = '_')).reverse

/-- `sanitize_chapter_title(title, max_length)`. -/
def sanitize_chapter_title (title : String) (max_length : Nat) : String :=
  let step1 := title.data.filterMap sanitizeChar
  let step2 := collapseRuns step1 false
  let step3 := stripUnderscores step2
  let step4 := if step3.length > max_length then rstripUnderscores (step3.take max_length) else step3
  if step4.isEmpty then "chapter" else ⟨step4⟩

/-! ### An executable IEEE-754 binary64 model

A non-negative double is represented as `m * 2 ^ e` with `m : ℕ` and
`e : ℤ`.  `normD` rounds an exact value of this form to 53 significant
bits with round-to-nearest, ties-to-even; `divD` implements correctly
rounded division.  Exponent range is unbounded (no realistic input reaches
binary64 overflow or subnormals), and `natLog2` supports magnitudes up to
`2 ^ 400`, far beyond anything reachable here. -/

structure DblF where
  m : ℕ
  e : ℤ
deriving DecidableEq, Repr

/-- Fuel-bounded base-2 logarithm (kernel-reducible, unlike `Nat.log2`). -/
def natLog2F : ℕ → ℕ → ℕ
  | 0, _ => 0
  | fuel + 1, n => if n ≤ 1 then 0 else natLog2F fuel (n / 2) + 1

/-- `⌊log₂ n⌋` for `n ≥ 1` (up to `2 ^ 400`). -/
def natLog2 (n : ℕ) : ℕ := natLog2F 400 n

/-- Round `q + r / d` (with `0 ≤ r < d`) to an integer, ties to even. -/
def roundHalfEven (q r d : ℕ) : ℕ :=
  if 2 * r < d then q
  else if 2 * r > d then q + 1
  else if q % 2 = 0 then q else q + 1

/-- Round the exact value `m * 2 ^ e` to 53 significant bits. -/
def normD (m : ℕ) (e : ℤ) : DblF :=
  if m = 0 then ⟨0, 0⟩
  else
    let l := natLog2 m
    if l ≤ 52 then ⟨m, e⟩
    else
      let s := l - 52
      ⟨roundHalfEven (m / 2 ^ s) (m % 2 ^ s) (2 ^ s), e + s⟩

/-- Exact conversion of a machine integer to binary64 (rounded if ≥ 2^53). -/
def ofNatD (n : ℕ) : DblF := normD n 0

/-- Binary64 multiplication (correctly rounded). -/
def mulD (x y : DblF) : DblF := normD (x.m * y.m) (x.e + y.e)

/-- Binary64 division (correctly rounded): scale the dividend so the
integer quotient carries 53 or 54 significant bits, then round.  The result
is exact rounding of the exact rational quotient. -/
def divD (x y : DblF) : DblF :=
  if x.m = 0 ∨ y.m = 0 then ⟨0, 0⟩
  else
    let s : ℤ := 53 - (natLog2 x.m : ℤ) + (natLog2 y.m : ℤ)
    let n := if 0 ≤ s then x.m * 2 ^ s.toNat else x.m
    let d := if 0 ≤ s then y.m else y.m * 2 ^ (-s).toNat
    let q := n / d
    let r := n % d
    if q < 2 ^ 53 then
      ⟨roundHalfEven q r d, x.e - y.e - s⟩
    else
      -- quotient has 54 bits: drop the lowest, folding it into the rounding
      let t := q / 2
      let m :=
        if q % 2 = 1 then
          if 0 < r then t + 1 else if t % 2 = 0 then t else t + 1
        else t
      ⟨m, x.e - y.e - s + 1⟩

/-- Python `int(x)` for a non-negative double (truncation = floor). -/
def truncD (x : DblF) : ℕ :=
  if 0 ≤ x.e then x.m * 2 ^ x.e.toNat else x.m / 2 ^ (-x.e).toNat

/-- `int((p / 100) * n)` in Python float semantics, for `p, n : ℕ`. -/
def pyPercentScaled (p n : ℕ) : ℕ :=
  truncD (mulD (divD (ofNatD p) (ofNatD 100)) (ofNatD n))

/-- `int((p / 100) * n)` for a possibly negative integer `p` (binary64
arithmetic is symmetric under negation, and `int()` truncates toward 0). -/
def pyPercentScaledZ (p : ℤ) (n : ℕ) : ℤ :=
  if 0 ≤ p then (pyPercentScaled p.toNat n : ℤ) else -(pyPercentScaled (-p).toNat n : ℤ)

/-- `int(100 * (i + 0.5) / num)` in Python float semantics: `100 * (i + 0.5)`
is the exact binary64 value `50 * (2 * i + 1)`, which is then divided. -/
def pyHalfPercent (i num : ℕ) : ℕ :=
  truncD (divD (ofNatD (50 * (2 * i + 1))) (ofNatD num))

/-! ### Data model -/

/-- One scene dictionary as parsed from the summarisation response JSON.
Each field is optional because the external model may omit any key
(`scene.get(...)` / `"k" in scene` in the source). -/
structure RawScene where
  scene_number : Option ℤ
  summary : Option String
  insert_after_text : Option String
  location_percent : Option ℤ
deriving DecidableEq, Repr

/-- An image payload: its byte length, whether it is (or base64-decodes to)
a PNG, and the rendering of its first bytes used in error messages.  The
source's base64 fall-back in `save_image` only changes which bytes are
written, never the returned path, so it is folded into `validPng`. -/
structure ImgBytes where
  size : ℕ
  validPng : Bool
  headerRepr : String
deriving DecidableEq, Repr

/-- Outcome of one call to the external image-generation service. -/
inductive ImgResult where
  /-- The response contains an inline image payload. -/
  | ok (b : ImgBytes)
  /-- `response.parts is None` (typically blocked by safety filters). -/
  | noParts
  /-- The response contains only text parts (`nparts` parts, text `txt`). -/
  | textOnly (nparts : ℕ) (txt : String)
  /-- The service call itself raised (transport / quota / auth). -/
  | err (msg : String)

/-- Outcome of one call to the external scene-summarisation service. -/
inductive SummarizeEnv where
  /-- The call raised (transport / quota / auth / client setup). -/
  | err (msg : String)
  /-- The textual response did not parse as JSON (`json.JSONDecodeError`). -/
  | malformed
  /-- The response parsed; `scenes` is the JSON document's `scenes` list
  (`data.get("scenes", [])`). -/
  | parsed (scenes : List RawScene)
deriving DecidableEq, Repr

/-- The external world: one summarisation outcome for the (single)
summarisation call of a run, and the image outcome of the `c`-th image call
of the run (`c` = number of image calls already made). -/
structure Env where
  summarize : SummarizeEnv
  image : ℕ → ImgResult

/-- A chapter's entry in `generated_images.json`, new (dict) format.
`Option` fields model keys that `save_image_metadata` omits when the
corresponding argument is falsy in Python. -/
structure StoredRecord where
  images : List String
  status : String
  schema_version : ℕ
  scene_locations : Option (List ℤ)
  anchor_texts : Option (List (Option String))
  error : Option String
  current_image_count : Option ℕ
deriving DecidableEq, Repr

/-- A chapter's entry in the metadata document: the legacy format (a bare
list of paths), the new dict format, or any other JSON value (a dict
without an `images` key, a number, ...), which every reader rejects. -/
inductive ChapterData where
  | legacy (paths : List String)
  | record (r : StoredRecord)
  | malformed
deriving DecidableEq, Repr

/-- The parsed metadata document: an association list keyed by chapter
index (the JSON object is keyed by `str(chapter_index)`, which is injective,
and Python dicts keep insertion order, matching replace-or-append updates). -/
def Metadata := List (ℕ × ChapterData)
deriving DecidableEq, Repr

/-- First-match lookup (Python dict indexing; keys are unique). -/
def lookupMeta : Metadata → ℕ → Option ChapterData
  | [], _ => none
  | (k, v) :: rest, ch => if k = ch then some v else lookupMeta rest ch

/-- `metadata[key] = value`: replace in place if present, else append. -/
def updateMeta : Metadata → ℕ → ChapterData → Metadata
  | [], ch, v => [(ch, v)]
  | (k, w) :: rest, ch, v =>
    if k = ch then (ch, v) :: rest else (k, w) :: updateMeta rest ch v

/-- `del metadata[key]` (keys are unique, so removing the first match). -/
def eraseMeta : Metadata → ℕ → Metadata
  | [], _ => []
  | (k, w) :: rest, ch => if k = ch then rest else (k, w) :: eraseMeta rest ch

/-- On-disk state for one book: the metadata document (`none` = the file
`generated_images.json` does not exist) and the set of image files existing
on disk, as book-relative paths. -/
structure FS where
  meta : Option Metadata
  files : List String
deriving DecidableEq, Repr

/-- `os.path.exists(os.path.join(book_id, img_path))`. -/
def fileExists (fs : FS) (p : String) : Bool :=
  fs.files.contains p

/-- Record the file `p` as written (idempotent: overwriting keeps one entry). -/
def addFile (fs : FS) (p : String) : FS :=
  if fs.files.contains p then fs else { fs with files := fs.files ++ [p] }

/-- Read what is stored for chapter `ch` (`none` when the metadata file or
the chapter key is absent). -/
def readRecord (fs : FS) (ch : ℕ) : Option ChapterData :=
  fs.meta.bind (fun m => lookupMeta m ch)

/-! ### `summarize_scenes` -/

/-- Post-parse validation of one scene dict: a missing `insert_after_text`
becomes `None` (identical to an absent key in this model), and a missing
`location_percent` defaults to `33 * (scene.get("scene_number", 1) - 1)`. -/
def normalizeScene (s : RawScene) : RawScene :=
  { s with location_percent := some (s.location_percent.getD (33 * (s.scene_number.getD 1 - 1))) }

/-- The generic scene appended by the padding loop when fewer than
`num_scenes` scenes were returned (`idx` = current length). -/
def padScene (num idx : ℕ) : RawScene :=
  { scene_number := some ((idx : ℤ) + 1)
  , summary := some "A scene from the chapter"
  , insert_after_text := none
  , location_percent := some (Int.ofNat (pyHalfPercent idx num)) }

/-- `while len(scenes) < num_scenes: scenes.append(...)`. -/
def padScenes (num : ℕ) (scenes : List RawScene) : List RawScene :=
  scenes ++ (List.range' scenes.length (num - scenes.length)).map (padScene num)

/-- The synthetic descriptors produced when JSON parsing fails. -/
def fallbackScenes (num : ℕ) : List RawScene :=
  (List.range num).map fun (i : ℕ) =>
    { scene_number := some (Int.ofNat i + 1)
    , summary := some ("An important scene from the chapter (scene " ++ toString (i + 1) ++ ")")
    , insert_after_text := none
    , location_percent := some (Int.ofNat (pyHalfPercent i num)) }

/-- `summarize_scenes(chapter_text, num_scenes)`.  Returns the result
(`Except` models raising) paired with the number of external text-service
calls made.  Empty/whitespace-only text returns `[]` before any call. -/
def summarize_scenes (se : SummarizeEnv) (chapter_text : String) (num_scenes : ℕ) :
    Except String (List RawScene) × ℕ :=
  if pyBlank chapter_text then (.ok [], 0)
  else
    match se with
    | .err m => (.error m, 1)
    | .malformed => (.ok (fallbackScenes num_scenes), 1)
    | .parsed scenes =>
      (.ok ((padScenes num_scenes (scenes.map normalizeScene)).take num_scenes), 1)

/-! ### `generate_image`, `save_image`, metadata store -/

/-- `generate_image(prompt)` applied to the service outcome `r`: extract the
inline payload, validate its size, or raise the corresponding error. -/
def generate_image (r : ImgResult) : Except String ImgBytes :=
  match r with
  | .err m => .error m
  | .noParts =>
    .error "No image data found in response. Response.parts is None (likely blocked by safety filters or API error)"
  | .textOnly nparts txt =>
    .error ("No image data found in response. Response had " ++ toString nparts
      ++ " parts. Text: " ++ (if txt = "" then "none" else txt.take 200))
  | .ok b =>
    if b.size < 1000 then
      .error ("Image too small: " ++ toString b.size ++ " bytes")
    else .ok b

/-- The deterministic relative path of a saved image. -/
def imagePath (chapter_index : ℕ) (scene_number : ℤ) (chapter_title : String) : String :=
  if chapter_title ≠ "" then
    "images/generated_ch" ++ toString chapter_index ++ "_"
      ++ sanitize_chapter_title chapter_title 50 ++ "_scene" ++ toString scene_number ++ ".png"
  else
    "images/generated_ch" ++ toString chapter_index ++ "_scene" ++ toString scene_number ++ ".png"

/-- `save_image(image_bytes, book_id, chapter_index, scene_number,
chapter_title)`: validate, write the file, return the relative path. -/
def save_image (fs : FS) (b : ImgBytes) (chapter_index : ℕ) (scene_number : ℤ)
    (chapter_title : String) : Except String (String × FS) :=
  if b.size < 1000 then
    .error ("Invalid image data: only " ++ toString b.size
      ++ " bytes (expected at least 1000 bytes for a valid PNG)")
  else if !b.validPng then
    .error ("Image data is not a valid PNG (header: " ++ b.headerRepr ++ ")")
  else
    let p := imagePath chapter_index scene_number chapter_title
    .ok (p, addFile fs p)

/-- Python truthiness filter for an optional list argument
(`if scene_locations:` stores the key only for a non-empty list). -/
def truthyList {α : Type} (l : Option (List α)) : Option (List α) :=
  match l with
  | some l => if l.isEmpty then none else some l
  | none => none

/-- Python truthiness filter for an optional string argument
(`if error:` stores the key only for a non-empty string). -/
def truthyStr (e : Option String) : Option String :=
  match e with
  | some e => if e = "" then none else some e
  | none => none

/-- The chapter dict built by `save_image_metadata`: optional keys are
included only when the Python argument is truthy
(`current_image_count` is included whenever it is not `None`). -/
def savedRecord (image_paths : List String) (scene_locations : Option (List ℤ))
    (anchor_texts : Option (List (Option String))) (status : String)
    (error : Option String) (current_image_count : Option ℕ) : StoredRecord :=
  { images := image_paths
  , status := status
  , schema_version := 2
  , scene_locations := truthyList scene_locations
  , anchor_texts := truthyList anchor_texts
  , error := truthyStr error
  , current_image_count := current_image_count }

/-- `save_image_metadata(...)`: load the document (missing/unreadable file
→ `{}`), build the chapter dict, and write the whole document back. -/
def save_image_metadata (fs : FS) (chapter_index : ℕ) (image_paths : List String)
    (scene_locations : Option (List ℤ)) (anchor_texts : Option (List (Option String)))
    (status : String) (error : Option String) (current_image_count : Option ℕ) : FS :=
  let metadata := fs.meta.getD []
  { fs with meta := some (updateMeta metadata chapter_index
      (.record (savedRecord image_paths scene_locations anchor_texts status error
        current_image_count))) }

/-- `get_cached_images(book_id, chapter_index)`: the pure cache read.
Returns the recorded path list on a hit, `None` otherwise. -/
def get_cached_images (fs : FS) (chapter_index : ℕ) : Option (List String) :=
  match fs.meta with
  | none => none
  | some metadata =>
    match lookupMeta metadata chapter_index with
    | none => none
    | some chapter_data =>
      match chapter_data with
      | .malformed => none
      | .legacy image_paths =>
        let existing_paths := image_paths.filter (fun p => fileExists fs p)
        if !existing_paths.isEmpty && existing_paths.length == image_paths.length then
          some existing_paths
        else none
      | .record r =>
        let existing_paths := r.images.filter (fun p => fileExists fs p)
        if !existing_paths.isEmpty && r.status == "completed"
            && existing_paths.length == r.images.length then
          some existing_paths
        else none

/-- The force-regeneration cleanup block of the orchestrator: if the
metadata file exists and holds the chapter, delete the referenced image
files that exist and remove the chapter's entry. -/
def forceCleanup (fs : FS) (chapter_index : ℕ) : FS :=
  match fs.meta with
  | none => fs
  | some metadata =>
    match lookupMeta metadata chapter_index with
    | none => fs
    | some chapter_data =>
      let old_paths :=
        match chapter_data with
        | .legacy ps => ps
        | .record r => r.images
        | .malformed => []
      { meta := some (eraseMeta metadata chapter_index)
      , files := fs.files.filter (fun p => !old_paths.contains p) }

/-- The orchestrator's user-facing error classification. -/
def classifyError (error_message : String) : String :=
  if containsSub error_message "No image data found in response" then
    if containsSub error_message "blocked by safety filters" then
      "Image generation blocked by safety filters. Try regenerating with different content."
    else
      "Image generation failed - no image data received from API."
  else if containsSub error_message "Failed to generate image for scene" then
    error_message
  else
    "Generation error: " ++ error_message

/-- The wrapper applied to any per-scene failure before it aborts the run. -/
def wrapSceneErr (i : ℕ) (msg : String) : String :=
  "Failed to generate image for scene " ++ toString (i + 1) ++ ": " ++ msg

/-- The per-scene loop of `generate_illustrations_for_chapter`.  Arguments
after the scene list: loop index `i`, accumulated paths / locations /
anchors, file-system state, and the number of image calls made so far
(which indexes `env.image`).  Returns the accumulators (on success), the
final state, and the image call count.  A missing `scene_number` or
`summary` raises a `KeyError` outside the per-scene `try`, so it is not
wrapped; every other failure is wrapped by `wrapSceneErr` and aborts. -/
def genLoop (env : Env) (chapter_index : ℕ) (chapter_title : String) (num_images : ℕ) :
    List RawScene → ℕ → List String → List ℤ → List (Option String) → FS → ℕ →
    Except String (List String × List ℤ × List (Option String)) × FS × ℕ
  | [], _, image_paths, scene_locations, anchor_texts, fs, calls =>
    (.ok (image_paths, scene_locations, anchor_texts), fs, calls)
  | scene :: rest, i, image_paths, scene_locations, anchor_texts, fs, calls =>
    match scene.scene_number with
    | none => (.error "KeyError: scene_number", fs, calls)
    | some scene_num =>
      match scene.summary with
      | none => (.error "KeyError: summary", fs, calls)
      | some _summary =>
        let scene_location := scene.location_percent.getD (Int.ofNat (pyHalfPercent i num_images))
        let scene_anchor := scene.insert_after_text
        let scene_locations := scene_locations ++ [scene_location]
        let anchor_texts := anchor_texts ++ [scene_anchor]
        match generate_image (env.image calls) with
        | .error m => (.error (wrapSceneErr i m), fs, calls + 1)
        | .ok image_bytes =>
          if image_bytes.size < 1000 then
            (.error (wrapSceneErr i ("Image too small: " ++ toString image_bytes.size
              ++ " bytes - likely an error response")), fs, calls + 1)
          else
            match save_image fs image_bytes chapter_index scene_num chapter_title with
            | .error m => (.error (wrapSceneErr i m), fs, calls + 1)
            | .ok (img_path, fs) =>
              let image_paths := image_paths ++ [img_path]
              let fs := save_image_metadata fs chapter_index image_paths
                (some scene_locations) (some anchor_texts) "generating" none
                (some image_paths.length)
              genLoop env chapter_index chapter_title num_images rest (i + 1)
                image_paths scene_locations anchor_texts fs (calls + 1)

/-- The result of one orchestrator run: the returned value (or the raised
message), the final on-disk state, and the number of external text / image
service calls performed. -/
structure GenOut where
  result : Except String (List String)
  fs : FS
  textCalls : ℕ
  imageCalls : ℕ

/-- The `except` block of the orchestrator: classify, persist an `error`
record, re-raise. -/
def errorOut (msg : String) (fs : FS) (chapter_index tc ic : ℕ) : GenOut :=
  { result := .error msg
  , fs := save_image_metadata fs chapter_index [] none none "error"
      (some (classifyError msg)) none
  , textCalls := tc
  , imageCalls := ic }

/-- The body of `generate_illustrations_for_chapter` after the cache check:
cleanup when forcing, write the `generating` record, summarise, loop,
finalise to `completed` or `error`. -/
def generateBody (env : Env) (fs : FS) (chapter_index : ℕ) (chapter_text : String)
    (chapter_title : String) (force : Bool) (num_images : ℕ) : GenOut :=
  let fs := if force then forceCleanup fs chapter_index else fs
  let fs := save_image_metadata fs chapter_index [] none none "generating" none (some 0)
  match summarize_scenes env.summarize chapter_text num_images with
  | (.error m, tc) => errorOut m fs chapter_index tc 0
  | (.ok scenes, tc) =>
    match genLoop env chapter_index chapter_title num_images scenes 0 [] [] [] fs 0 with
    | (.error m, fs, ic) => errorOut m fs chapter_index tc ic
    | (.ok (image_paths, scene_locations, anchor_texts), fs, ic) =>
      { result := .ok image_paths
      , fs := save_image_metadata fs chapter_index image_paths
          (some scene_locations) (some anchor_texts) "completed" none none
      , textCalls := tc
      , imageCalls := ic }

/-- `generate_illustrations_for_chapter(book_id, chapter_index,
chapter_text, book_title, chapter_title, force_regenerate, num_images,
style)`.  `book_title` and `style` only shape the prompt text, which the
environment already accounts for, so they are not parameters here. -/
def generate_illustrations_for_chapter (env : Env) (fs : FS) (chapter_index : ℕ)
    (chapter_text : String) (chapter_title : String) (force_regenerate : Bool)
    (num_images : ℕ) : GenOut :=
  match (if force_regenerate then none else get_cached_images fs chapter_index) with
  | some cached =>
    if !cached.isEmpty && cached.length == num_images then
      { result := .ok cached, fs := fs, textCalls := 0, imageCalls := 0 }
    else
      generateBody env fs chapter_index chapter_text chapter_title
        (force_regenerate || !cached.isEmpty) num_images
  | none =>
    generateBody env fs chapter_index chapter_text chapter_title force_regenerate num_images

/-- The orchestrator's cache-hit test for `n` requested images
(`if cached and len(cached) == num_images`). -/
def cacheHitFor (fs : FS) (chapter_index n : ℕ) : Bool :=
  match get_cached_images fs chapter_index with
  | some cached => !cached.isEmpty && cached.length == n
  | none => false

/-! ### `find_insertion_point`

The function receives BeautifulSoup paragraph tags and immediately reduces
them to their text (`para.get_text(separator=' ', strip=True)`); the model
takes the list of paragraph texts directly.  The two `rapidfuzz` scoring
functions (`fuzz.ratio`, `fuzz.partial_ratio`, both returning 0–100) are an
external library and are passed in as oracle parameters. -/

/-- The percentage fallback
`min(int((fallback_percent / 100) * len(paragraphs)), len(paragraphs) - 1)`
in Python semantics (binary64 arithmetic, `len - 1` may be `-1` for an
empty list). -/
def fallbackIdx (fallback_percent : ℤ) (numParagraphs : ℕ) : ℤ :=
  min (pyPercentScaledZ fallback_percent numParagraphs) ((numParagraphs : ℤ) - 1)

/-- First paragraph whose lower-cased text contains `key` as a substring. -/
def exactMatchIdx (texts : List String) (key : String) : Option ℕ :=
  match texts with
  | [] => none
  | t :: rest =>
    if containsSub (lowerStr t) key then some 0
    else (exactMatchIdx rest key).map (· + 1)

/-- The best-score scan (`best_match_idx = -1; best_match_score = 0; ...
if score > best_match_score: update`), over the texts starting at index
`i`. -/
def bestScoreAux (score : String → ℕ) : List String → ℕ → ℤ × ℕ → ℤ × ℕ
  | [], _, best => best
  | t :: rest, i, best =>
    bestScoreAux score rest (i + 1) (if score t > best.2 then (Int.ofNat i, score t) else best)

/-- `(best_match_idx, best_match_score)` over the whole paragraph list. -/
def bestScore (score : String → ℕ) (texts : List String) : ℤ × ℕ :=
  bestScoreAux score texts 0 (-1, 0)

/-- `find_insertion_point(paragraphs, anchor_text, fallback_percent,
scene_number)`.  `ratio` / `partialRatio` model `rapidfuzz.fuzz`. -/
def find_insertion_point (ratio partialRatio : String → String → ℕ)
    (paragraph_texts : List String) (anchor_text : Option String)
    (fallback_percent : ℤ) (_scene_number : ℕ) : ℤ :=
  match anchor_text with
  | none => fallbackIdx fallback_percent paragraph_texts.length
  | some anchor =>
    if pyStrip anchor = "" then fallbackIdx fallback_percent paragraph_texts.length
    else
      let anchor_clean := normWs anchor
      match exactMatchIdx paragraph_texts (lowerStr anchor_clean) with
      | some i => Int.ofNat i
      | none =>
        let best := bestScore (fun t => ratio (lowerStr anchor_clean) (lowerStr t)) paragraph_texts
        if 80 ≤ best.2 then best.1
        else
          let bestPartial := bestScore
            (fun t => partialRatio (lowerStr anchor_clean) (lowerStr t)) paragraph_texts
          if 85 ≤ bestPartial.2 then bestPartial.1
          else fallbackIdx fallback_percent paragraph_texts.length

/-! ### `inject_images_into_html`

The chapter document is modelled as a flat list of nodes: paragraph nodes
(labelled with text) and image nodes.  `soup.find_all('p')` is the sublist
of paragraph nodes; `para.insert_after(img)` makes the image the immediate
following sibling of that paragraph *node* (node identity, not index). -/

inductive Node where
  | para (label : ℕ) (text : String)
  | img (src : String)
deriving DecidableEq, Repr

/-- Is this node a paragraph? -/
def Node.isPara : Node → Bool
  | .para _ _ => true
  | .img _ => false

/-- The text of a paragraph node (images have no text). -/
def Node.text : Node → String
  | .para _ t => t
  | .img _ => ""

/-- `soup.find_all('p')`: the paragraph nodes, in document order. -/
def parasOf (doc : List Node) : List Node :=
  doc.filter Node.isPara

/-- `target.insert_after(nd)`: insert `nd` directly after the first
occurrence of `target` (BeautifulSoup identifies the node itself; in a
document whose paragraph nodes are pairwise distinct the first occurrence
is the node). -/
def insertAfterNode : List Node → Node → Node → List Node
  | [], _, _ => []
  | h :: t, target, nd =>
    if h = target then h :: nd :: t else h :: insertAfterNode t target nd

/-- Python list indexing `l[i]` on the paragraph list: non-negative
indices address from the front, negative indices wrap around
(`l[-1]` is the last paragraph, as `len(l) + i`), and an index out of
range on either side is an `IndexError` (`none` here). -/
def pyParaAt (l : List Node) (i : ℤ) : Option Node :=
  let j := if 0 ≤ i then i else (l.length : ℤ) + i
  if h : 0 ≤ j ∧ j.toNat < l.length then some (l.get ⟨j.toNat, h.2⟩) else none

/-- One iteration of the insertion loop: `if para_idx < len(paragraphs):
paragraphs[para_idx].insert_after(img)`.  `paras0` is the paragraph list of
the *original* document (computed once, before any insertion).  The guard
is only `para_idx < len`, so a negative index wraps around per Python
indexing (an index below `-len` raises an `IndexError`, which aborts the
whole injection). -/
def insertStep (paras0 : List Node) (d : List Node) (pr : ℤ × String) :
    Except String (List Node) :=
  if pr.1 < (paras0.length : ℤ) then
    match pyParaAt paras0 pr.1 with
    | some para => Except.ok (insertAfterNode d para (Node.img pr.2))
    | none => Except.error "IndexError: list index out of range"
  else Except.ok d

/-- The insertion loop over a pair list, propagating a raised `IndexError`. -/
def runInsertions (paras0 : List Node) : List Node → List (ℤ × String) →
    Except String (List Node)
  | d, [] => Except.ok d
  | d, pr :: rest =>
    match insertStep paras0 d pr with
    | Except.ok d2 => runInsertions paras0 d2 rest
    | Except.error e => Except.error e

/-- `insertion_points.sort(reverse=True, key=lambda x: x[0])`: a stable
descending sort by index (Python's sort is stable; `insertionSort` with
`≥` on keys is the same stable order). -/
def sortDescIns (l : List (ℤ × String)) : List (ℤ × String) :=
  List.insertionSort (fun a b => b.1 ≤ a.1) l

/-- The insertion phase of `inject_images_into_html`: sort the resolved
`(index, image)` pairs descending, then insert each image after its
paragraph node. -/
def insertSortedImages (doc : List Node) (pairs : List (ℤ × String)) :
    Except String (List Node) :=
  runInsertions (parasOf doc) doc (sortDescIns pairs)

/-- The specification-side insertion (`§4.5` / claim C6): insert each image
directly after its computed paragraph of the original list, processing the
pairs in their given order with no re-sorting. -/
def directInsertOriginal (doc : List Node) (pairs : List (ℤ × String)) :
    Except String (List Node) :=
  runInsertions (parasOf doc) doc pairs

/-- The pure effect of one loop iteration when it does not raise (used to
relate the two insertion orders once the raising case is dispatched). -/
def applyIns (paras0 : List Node) (d : List Node) (pr : ℤ × String) : List Node :=
  if pr.1 < (paras0.length : ℤ) then
    match pyParaAt paras0 pr.1 with
    | some para => insertAfterNode d para (Node.img pr.2)
    | none => d
  else d

/-- Does this pair raise an `IndexError` (index below `-len` while passing
the `< len` guard)?  This depends only on the pair, not on the evolving
document. -/
def raisesAt (paras0 : List Node) (pr : ℤ × String) : Bool :=
  decide (pr.1 < (paras0.length : ℤ)) && (pyParaAt paras0 pr.1).isNone

/-- The per-image anchor/percent selection and resolution of
`inject_images_into_html` (producing `insertion_points`). -/
def resolveInsertionPoints (ratio partialRatio : String → String → ℕ)
    (paragraphs : List Node) (image_paths : List String) (scene_locations : List ℤ)
    (anchor_texts : Option (List (Option String))) : List (ℤ × String) :=
  (image_paths.enum).map fun (i, img) =>
    let anchor_text : Option String :=
      match anchor_texts with
      | some ats => if h : i < ats.length then ats.get ⟨i, h⟩ else none
      | none => none
    let fallback_percent := if h : i < scene_locations.length then scene_locations.get ⟨i, h⟩ else 50
    (find_insertion_point ratio partialRatio (paragraphs.map Node.text) anchor_text
        fallback_percent (i + 1), img)

/-- `inject_images_into_html(html_content, image_paths, scene_locations,
anchor_texts)` on the parsed document. -/
def inject_images_into_html (ratio partialRatio : String → String → ℕ)
    (doc : List Node) (image_paths : List String) (scene_locations : List ℤ)
    (anchor_texts : Option (List (Option String))) : Except String (List Node) :=
  if image_paths.isEmpty then Except.ok doc
  else
    let paragraphs := parasOf doc
    if paragraphs.isEmpty then Except.ok (doc ++ image_paths.map Node.img)
    else
      insertSortedImages doc
        (resolveInsertionPoints ratio partialRatio paragraphs image_paths
          scene_locations anchor_texts)

/-- Does the `c`-th image-service outcome let the per-scene pipeline
(synthesise, validate, save) succeed?  (Used to state claims C2/C3.) -/
def attemptOk : ImgResult → Bool
  | .ok b => decide (1000 ≤ b.size) && b.validPng
  | _ => false

/-! ### Metadata store lemmas -/

theorem lookupMeta_updateMeta_self (m : Metadata) (ch : ℕ) (v : ChapterData) :
    lookupMeta (updateMeta m ch v) ch = some v := by
  induction m with
  | nil => simp [updateMeta, lookupMeta]
  | cons kv rest ih =>
    obtain ⟨k, w⟩ := kv
    by_cases hk : k = ch
    · simp [updateMeta, lookupMeta, hk]
    · simp [updateMeta, lookupMeta, hk, ih]

theorem lookupMeta_updateMeta_ne (m : Metadata) (ch ch' : ℕ) (v : ChapterData)
    (h : ch' ≠ ch) : lookupMeta (updateMeta m ch v) ch' = lookupMeta m ch' := by
  induction m with
  | nil => simp [updateMeta, lookupMeta, Ne.symm h]
  | cons kv rest ih =>
    obtain ⟨k, w⟩ := kv
    by_cases hk : k = ch
    · subst hk
      simp [updateMeta, lookupMeta, Ne.symm h]
    · by_cases hk' : k = ch'
      · simp [updateMeta, lookupMeta, hk, hk', h]
      · simp [updateMeta, lookupMeta, hk, hk', ih]

theorem readRecord_save_self (fs : FS) (ch : ℕ) (paths : List String)
    (locs : Option (List ℤ)) (ancs : Option (List (Option String))) (st : String)
    (err : Option String) (cnt : Option ℕ) :
    readRecord (save_image_metadata fs ch paths locs ancs st err cnt) ch =
      some (.record (savedRecord paths locs ancs st err cnt)) := by
  simp [readRecord, save_image_metadata, savedRecord, lookupMeta_updateMeta_self]

theorem readRecord_save_ne (fs : FS) (ch ch' : ℕ) (paths : List String)
    (locs : Option (List ℤ)) (ancs : Option (List (Option String))) (st : String)
    (err : Option String) (cnt : Option ℕ) (h : ch' ≠ ch) :
    readRecord (save_image_metadata fs ch paths locs ancs st err cnt) ch' =
      readRecord fs ch' := by
  cases hm : fs.meta with
  | none => simp [readRecord, save_image_metadata, hm, lookupMeta, Ne.symm h]
  | some m => simp [readRecord, save_image_metadata, hm, lookupMeta_updateMeta_ne _ _ _ _ h]

/-- Files on disk are untouched by a metadata write. -/
theorem save_image_metadata_files (fs : FS) (ch : ℕ) (paths : List String)
    (locs : Option (List ℤ)) (ancs : Option (List (Option String))) (st : String)
    (err : Option String) (cnt : Option ℕ) :
    (save_image_metadata fs ch paths locs ancs st err cnt).files = fs.files := by
  simp [save_image_metadata]

/-! ### Cache read characterisation -/

/-- `get_cached_images` on a chapter stored in the dict format: a hit
returns exactly the recorded list, and happens precisely when the status is
`completed`, the list is non-empty, and every recorded path exists. -/
theorem get_cached_images_record_eq (fs : FS) (m : Metadata) (ch : ℕ) (r : StoredRecord)
    (hm : fs.meta = some m) (hr : lookupMeta m ch = some (ChapterData.record r)) :
    get_cached_images fs ch =
      if r.status = "completed" ∧ r.images ≠ [] ∧ (∀ p ∈ r.images, fileExists fs p)
      then some r.images else none := by
  simp only [get_cached_images, hm, hr]
  by_cases hall : ∀ p ∈ r.images, fileExists fs p
  · have hfe : r.images.filter (fun p => fileExists fs p) = r.images :=
      List.filter_eq_self.mpr hall
    rw [hfe]
    by_cases hs : r.status = "completed"
    · by_cases hne : r.images = []
      · simp [hne, hs]
      · simp [hs, hne]
        exact hall
    · simp [hs]
  · have hlen_ne : (r.images.filter (fun p => fileExists fs p)).length ≠ r.images.length :=
      fun he => hall (List.filter_eq_self.mp ((List.filter_sublist _).eq_of_length he))
    simp [hlen_ne, hall]

/-! ### Claim C1 -/

/-- Claim C1 (amended): for a chapter record in the structured (dict)
format, `get_cached_images` together with the orchestrator's length check
yields a cache hit for `n` requested images if and only if the record's
status is `completed`, every recorded path exists on disk, the recorded
count equals `n`, *and the recorded list is non-empty*; on a hit exactly
the recorded list is returned.  (The claim as stated, without the
non-emptiness condition, is refuted by `c1_counterexample`.) -/
theorem c1_cache_hit_iff (fs : FS) (m : Metadata) (ch n : ℕ) (r : StoredRecord)
    (hm : fs.meta = some m) (hr : lookupMeta m ch = some (ChapterData.record r)) :
    ((∃ l, get_cached_images fs ch = some l ∧ l.length = n) ↔
      (r.status = "completed" ∧ (∀ p ∈ r.images, fileExists fs p) ∧
        r.images.length = n ∧ r.images ≠ [])) ∧
    (r.status = "completed" → (∀ p ∈ r.images, fileExists fs p) → r.images ≠ [] →
      get_cached_images fs ch = some r.images) := by
  have hchar := get_cached_images_record_eq fs m ch r hm hr
  constructor
  · constructor
    · rintro ⟨l, hl, hlen⟩
      rw [hchar] at hl
      by_cases hcond : r.status = "completed" ∧ r.images ≠ [] ∧ ∀ p ∈ r.images, fileExists fs p
      · obtain ⟨hs, hne, hall⟩ := hcond
        rw [if_pos ⟨hs, hne, hall⟩] at hl
        have : r.images = l := by injection hl
        exact ⟨hs, hall, by rw [this]; exact hlen, hne⟩
      · rw [if_neg hcond] at hl
        exact absurd hl (by simp)
    · rintro ⟨hs, hall, hlen, hne⟩
      exact ⟨r.images, by rw [hchar, if_pos ⟨hs, hne, hall⟩], hlen⟩
  · intro hs hall hne
    rw [hchar, if_pos ⟨hs, hne, hall⟩]

/-- Claim C1 witness: a completed one-image record whose file exists is a
hit returning exactly the recorded list. -/
theorem c1_witness :
    get_cached_images
      ⟨some [(0, ChapterData.record ⟨["images/a.png"], "completed", 2, none, none, none, none⟩)],
        ["images/a.png"]⟩ 0 = some ["images/a.png"] :=
  (c1_cache_hit_iff _ [(0, ChapterData.record ⟨["images/a.png"], "completed", 2, none, none, none, none⟩)]
      0 1 ⟨["images/a.png"], "completed", 2, none, none, none, none⟩ rfl rfl).2
    rfl (by decide) (by decide)

/-- Claim C1 counterexample: for `N = 0`, a record with
`status = completed` and zero recorded paths satisfies the claim's stated
hit condition (completed status, all recorded files exist vacuously, count
equals `N`), yet both `get_cached_images` and the orchestrator's combined
check treat it as a miss. -/
theorem c1_counterexample :
    ("completed" = "completed" ∧
      (∀ p ∈ ([] : List String),
        fileExists ⟨some [(0, ChapterData.record ⟨[], "completed", 2, none, none, none, none⟩)], []⟩ p) ∧
      ([] : List String).length = 0) ∧
    get_cached_images
      ⟨some [(0, ChapterData.record ⟨[], "completed", 2, none, none, none, none⟩)], []⟩ 0 = none ∧
    cacheHitFor
      ⟨some [(0, ChapterData.record ⟨[], "completed", 2, none, none, none, none⟩)], []⟩ 0 0 = false := by
  refine ⟨⟨rfl, by simp, rfl⟩, by decide, by decide⟩

/-! ### Claim C4 -/

/-- Claim C4: for non-blank chapter text, whenever `summarize_scenes`
returns rather than raising it returns exactly `n` descriptors (padding or
truncating the external model's list), and a malformed (unparsable-JSON)
response yields exactly the `n` synthetic descriptors, whose
`location_percent` values are the evenly spaced `int(100 * (i + 0.5) / n)`. -/
theorem c4_extraction_count (se : SummarizeEnv) (chapter_text : String) (n : ℕ)
    (l : List RawScene)
    (htext : pyBlank chapter_text = false)
    (hret : (summarize_scenes se chapter_text n).1 = Except.ok l) :
    l.length = n ∧
      (se = SummarizeEnv.malformed → l = fallbackScenes n ∧
        ∀ i (h : i < l.length),
          (l.get ⟨i, h⟩).location_percent = some (Int.ofNat (pyHalfPercent i n))) := by
  cases se with
  | err m => simp [summarize_scenes, htext] at hret
  | malformed =>
    simp only [summarize_scenes, htext, Bool.false_eq_true, if_false] at hret
    have hl : l = fallbackScenes n := by
      have := hret
      simp only [Except.ok.injEq] at this
      exact this.symm
    subst hl
    refine ⟨by simp [fallbackScenes], fun _ => ⟨rfl, fun i h => ?_⟩⟩
    simp [fallbackScenes]
  | parsed scenes =>
    simp only [summarize_scenes, htext, Bool.false_eq_true, if_false] at hret
    have hl : l = (padScenes n (scenes.map normalizeScene)).take n := by
      simp only [Except.ok.injEq] at hret
      exact hret.symm
    subst hl
    refine ⟨?_, by intro h; cases h⟩
    simp only [List.length_take, padScenes, List.length_append, List.length_map,
      List.length_range']
    omega

/-- Claim C4 witness: a malformed response for 2 requested scenes yields
exactly 2 synthetic descriptors. -/
theorem c4_witness : (fallbackScenes 2).length = 2 :=
  (c4_extraction_count SummarizeEnv.malformed "x" 2 (fallbackScenes 2) rfl rfl).1

/-! ### Claim C8 -/

/-- Claim C8: writing chapter `K`'s record leaves any other chapter `J`'s
entry unchanged, and reading chapter `K` back yields a record with the same
image paths, status, locations and anchors (non-empty optional lists are
stored verbatim). -/
theorem c8_write_isolation (fs : FS) (J K : ℕ) (paths : List String)
    (locs : Option (List ℤ)) (ancs : Option (List (Option String))) (st : String)
    (err : Option String) (cnt : Option ℕ) (hJK : J ≠ K) :
    readRecord (save_image_metadata fs K paths locs ancs st err cnt) J = readRecord fs J ∧
    ∃ r, readRecord (save_image_metadata fs K paths locs ancs st err cnt) K =
        some (ChapterData.record r) ∧
      r.images = paths ∧ r.status = st ∧
      (∀ lv, locs = some lv → lv ≠ [] → r.scene_locations = some lv) ∧
      (∀ av, ancs = some av → av ≠ [] → r.anchor_texts = some av) := by
  refine ⟨readRecord_save_ne fs K J paths locs ancs st err cnt hJK,
    savedRecord paths locs ancs st err cnt,
    readRecord_save_self fs K paths locs ancs st err cnt, rfl, rfl, ?_, ?_⟩
  · intro lv hl hne
    subst hl
    simp [savedRecord, truthyList, hne]
  · intro av ha hne
    subst ha
    simp [savedRecord, truthyList, hne]

/-- Claim C8 witness: writing chapter 1 leaves chapter 0's legacy entry
untouched. -/
theorem c8_witness :
    readRecord (save_image_metadata ⟨some [(0, ChapterData.legacy ["images/x.png"])], []⟩ 1
      ["images/y.png"] (some [40]) (some [some "anchor"]) "completed" none none) 0 =
      some (ChapterData.legacy ["images/x.png"]) := by
  have h := c8_write_isolation ⟨some [(0, ChapterData.legacy ["images/x.png"])], []⟩ 0 1
    ["images/y.png"] (some [40]) (some [some "anchor"]) "completed" none none (by decide)
  rw [h.1]
  decide

/-! ### Claim C10 -/

/-- Claim C10: `get_cached_images` never returns an empty list — its result
is `None` or a non-empty list — and a record with `status = completed` but
zero recorded paths is always a cache miss, for every requested count. -/
theorem c10_empty_never_hit (fs : FS) (ch : ℕ) :
    (∀ l, get_cached_images fs ch = some l → l ≠ []) ∧
    (∀ r, readRecord fs ch = some (ChapterData.record r) → r.images = [] →
      get_cached_images fs ch = none ∧ ∀ n, cacheHitFor fs ch n = false) := by
  constructor
  · intro l h
    cases hm : fs.meta with
    | none => simp [get_cached_images, hm] at h
    | some m =>
      cases hl : lookupMeta m ch with
      | none => simp [get_cached_images, hm, hl] at h
      | some cd =>
        cases cd with
        | malformed => simp [get_cached_images, hm, hl] at h
        | legacy ps =>
          simp only [get_cached_images, hm, hl] at h
          split at h
          · rename_i hc
            simp only [Bool.and_eq_true, Bool.not_eq_true'] at hc
            injection h with h'
            subst h'
            intro hnil
            rw [hnil] at hc
            simp at hc
          · exact absurd h (by simp)
        | record r =>
          simp only [get_cached_images, hm, hl] at h
          split at h
          · rename_i hc
            simp only [Bool.and_eq_true, Bool.not_eq_true'] at hc
            injection h with h'
            subst h'
            intro hnil
            rw [hnil] at hc
            simp at hc
          · exact absurd h (by simp)
  · intro r hr hempty
    have hnone : get_cached_images fs ch = none := by
      cases hm : fs.meta with
      | none => simp [readRecord, hm] at hr
      | some m =>
        rw [readRecord, hm] at hr
        simp only [Option.some_bind] at hr
        simp [get_cached_images, hm, hr, hempty]
    exact ⟨hnone, fun n => by unfold cacheHitFor; rw [hnone]⟩

/-- Claim C10 witness: the completed-with-zero-paths record is a miss for a
request of 3 images. -/
theorem c10_witness :
    get_cached_images
      ⟨some [(5, ChapterData.record ⟨[], "completed", 2, none, none, some "x", none⟩)], []⟩ 5 = none ∧
    cacheHitFor
      ⟨some [(5, ChapterData.record ⟨[], "completed", 2, none, none, some "x", none⟩)], []⟩ 5 3 = false := by
  have h := (c10_empty_never_hit
    ⟨some [(5, ChapterData.record ⟨[], "completed", 2, none, none, some "x", none⟩)], []⟩ 5).2
    ⟨[], "completed", 2, none, none, some "x", none⟩ rfl rfl
  exact ⟨h.1, h.2 3⟩

/-! ### Claim C5 -/

/-- The exact-match scan returns the first index whose lower-cased text
contains the key. -/
theorem exactMatchIdx_first (texts : List String) (key : String) (P : ℕ)
    (hP : P < texts.length)
    (hm : containsSub (lowerStr (texts.get ⟨P, hP⟩)) key = true)
    (he : ∀ i (hi : i < P),
      containsSub (lowerStr (texts.get ⟨i, Nat.lt_trans hi hP⟩)) key = false) :
    exactMatchIdx texts key = some P := by
  induction texts generalizing P with
  | nil => exact absurd hP (by simp)
  | cons t rest ih =>
    cases P with
    | zero =>
      simp only [List.get] at hm
      simp [exactMatchIdx, hm]
    | succ P' =>
      have h0 : containsSub (lowerStr t) key = false := by
        simpa using he 0 (Nat.succ_pos P')
      have hrest := ih P' (Nat.lt_of_succ_lt_succ hP) (by simpa using hm)
        (fun i hi => by simpa using he (i + 1) (Nat.succ_lt_succ hi))
      simp [exactMatchIdx, h0, hrest]

/-- Claim C5: a non-blank anchor whose whitespace-normalised, lower-cased
form occurs as a substring of paragraph `P`'s text and of no earlier
paragraph's text makes `find_insertion_point` return `P`, for every
fallback percentage and every pair of fuzzy scoring functions. -/
theorem c5_anchor_resolves (ratio partialRatio : String → String → ℕ)
    (texts : List String) (anchor : String) (percent : ℤ) (sn : ℕ) (P : ℕ)
    (hblank : pyStrip anchor ≠ "")
    (hP : P < texts.length)
    (hm : containsSub (lowerStr (texts.get ⟨P, hP⟩)) (lowerStr (normWs anchor)) = true)
    (he : ∀ i (hi : i < P),
      containsSub (lowerStr (texts.get ⟨i, Nat.lt_trans hi hP⟩))
        (lowerStr (normWs anchor)) = false) :
    find_insertion_point ratio partialRatio texts (some anchor) percent sn = Int.ofNat P := by
  have hidx := exactMatchIdx_first texts (lowerStr (normWs anchor)) P hP hm he
  simp [find_insertion_point, hblank, hidx]

/-- Claim C5 witness: the spec's example anchor (with extra whitespace)
resolves to paragraph 1 of a 2-paragraph stream, despite a fallback
percentage pointing at paragraph 0. -/
theorem c5_witness :
    find_insertion_point (fun _ _ => 0) (fun _ _ => 0)
      ["Intro paragraph here.", "The SKY darkened as storm clouds gathered. He walked on."]
      (some " The  sky darkened as   storm clouds gathered. ") 0 1 = Int.ofNat 1 :=
  c5_anchor_resolves (fun _ _ => 0) (fun _ _ => 0)
    ["Intro paragraph here.", "The SKY darkened as storm clouds gathered. He walked on."]
    " The  sky darkened as   storm clouds gathered. " 0 1 1
    (by decide) (by decide) (by decide)
    (fun i hi => by
      have h0 : i = 0 := by omega
      subst h0
      exact (by decide : containsSub (lowerStr "Intro paragraph here.")
        (lowerStr (normWs " The  sky darkened as   storm clouds gathered. ")) = false))

/-! ### Claim C9 -/

/-- Bound invariant for the best-score scan: starting from the sentinel
`(-1, 0)` the accumulator is either still the sentinel or holds an index in
`[0, i + length)`. -/
theorem bestScoreAux_cases (score : String → ℕ) :
    ∀ (l : List String) (i : ℕ) (best : ℤ × ℕ),
      (best = ((-1 : ℤ), 0) ∨ (0 ≤ best.1 ∧ best.1 < (i : ℤ))) →
      bestScoreAux score l i best = ((-1 : ℤ), 0) ∨
        (0 ≤ (bestScoreAux score l i best).1 ∧
          (bestScoreAux score l i best).1 < ((i + l.length : ℕ) : ℤ)) := by
  intro l
  induction l with
  | nil =>
    intro i best hb
    rcases hb with hb | hb
    · exact Or.inl (by simp [bestScoreAux, hb])
    · exact Or.inr (by simpa [bestScoreAux] using hb)
  | cons t rest ih =>
    intro i best hb
    have hstep : (if score t > best.2 then (Int.ofNat i, score t) else best) = ((-1 : ℤ), 0) ∨
        (0 ≤ (if score t > best.2 then (Int.ofNat i, score t) else best).1 ∧
          (if score t > best.2 then (Int.ofNat i, score t) else best).1 < ((i + 1 : ℕ) : ℤ)) := by
      by_cases hsc : score t > best.2
      · rw [if_pos hsc]
        refine Or.inr ⟨Int.ofNat_nonneg i, ?_⟩
        simp only [Int.ofNat_eq_natCast]
        push_cast
        omega
      · rw [if_neg hsc]
        rcases hb with hb | hb
        · exact Or.inl hb
        · refine Or.inr ⟨hb.1, lt_trans hb.2 ?_⟩
          push_cast
          omega
    have := ih (i + 1) _ hstep
    simpa [bestScoreAux, Nat.add_assoc, Nat.add_comm 1 rest.length] using this

/-- If the best score reached a positive threshold, the recorded index is a
valid paragraph index. -/
theorem bestScore_bounds (score : String → ℕ) (texts : List String)
    (h : 1 ≤ (bestScore score texts).2) :
    0 ≤ (bestScore score texts).1 ∧ (bestScore score texts).1 < (texts.length : ℤ) := by
  rcases bestScoreAux_cases score texts 0 ((-1 : ℤ), 0) (Or.inl rfl) with h1 | h2
  · rw [show bestScore score texts = bestScoreAux score texts 0 ((-1 : ℤ), 0) from rfl, h1] at h
    simp at h
  · rw [show bestScore score texts = bestScoreAux score texts 0 ((-1 : ℤ), 0) from rfl]
    simpa using h2

/-- The exact-match scan returns a valid index. -/
theorem exactMatchIdx_lt (texts : List String) (key : String) :
    ∀ i, exactMatchIdx texts key = some i → i < texts.length := by
  induction texts with
  | nil => intro i h; simp [exactMatchIdx] at h
  | cons t rest ih =>
    intro i h
    simp only [exactMatchIdx] at h
    split at h
    · injection h with h'
      simp only [List.length_cons]
      omega
    · cases hrest : exactMatchIdx rest key with
      | none => rw [hrest] at h; simp at h
      | some j =>
        rw [hrest] at h
        have h2 : j + 1 = i := by simpa using h
        have := ih j hrest
        simp only [List.length_cons]
        omega

/-- Bounds for the percentage fallback with a non-negative percent and a
non-empty paragraph stream. -/
theorem fallbackIdx_bounds (p : ℤ) (n : ℕ) (hp : 0 ≤ p) (hn : 1 ≤ n) :
    0 ≤ fallbackIdx p n ∧ fallbackIdx p n ≤ (n : ℤ) - 1 := by
  unfold fallbackIdx pyPercentScaledZ
  rw [if_pos hp]
  refine ⟨le_min ?_ ?_, min_le_right _ _⟩
  · exact Int.natCast_nonneg _
  · have h1 : (1 : ℤ) ≤ (n : ℤ) := by exact_mod_cast hn
    omega

/-- Claim C9 (amended): `find_insertion_point` is total and always returns
an index in `[0, len - 1]` for a non-empty paragraph stream and a fallback
percent in `0..100`; whenever the anchor is absent/blank, or there is no
exact substring match and neither fuzzy score reaches its threshold (80 /
85), it returns exactly the clamped Python-float fallback
`min(int((percent / 100) * len), len - 1)`.  (The claim's exact-arithmetic
formula `floor(percent * len / 100)` is refuted by `c9_counterexample`.) -/
theorem c9_total_fallback (ratio partialRatio : String → String → ℕ)
    (texts : List String) (anchor : Option String) (percent : ℤ) (sn : ℕ)
    (hne : texts ≠ []) (hp0 : 0 ≤ percent) (_hp1 : percent ≤ 100) :
    (0 ≤ find_insertion_point ratio partialRatio texts anchor percent sn ∧
      find_insertion_point ratio partialRatio texts anchor percent sn ≤ (texts.length : ℤ) - 1) ∧
    ((anchor = none ∨ (∃ a, anchor = some a ∧ pyStrip a = "") ∨
        (∃ a, anchor = some a ∧ pyStrip a ≠ "" ∧
          exactMatchIdx texts (lowerStr (normWs a)) = none ∧
          (bestScore (fun t => ratio (lowerStr (normWs a)) (lowerStr t)) texts).2 < 80 ∧
          (bestScore (fun t => partialRatio (lowerStr (normWs a)) (lowerStr t)) texts).2 < 85)) →
      find_insertion_point ratio partialRatio texts anchor percent sn =
        min (pyPercentScaledZ percent texts.length) ((texts.length : ℤ) - 1)) := by
  have hn : 1 ≤ texts.length := by
    cases texts with
    | nil => exact absurd rfl hne
    | cons t rest => simp
  have hfb := fallbackIdx_bounds percent texts.length hp0 hn
  constructor
  · cases anchor with
    | none => simpa only [find_insertion_point] using hfb
    | some a =>
      by_cases hblank : pyStrip a = ""
      · simpa only [find_insertion_point, hblank, if_true] using hfb
      · cases hex : exactMatchIdx texts (lowerStr (normWs a)) with
        | some i =>
          have := exactMatchIdx_lt texts (lowerStr (normWs a)) i hex
          simp only [find_insertion_point, hblank, if_neg hblank, hex, Int.ofNat_eq_natCast]
          constructor
          · exact Int.natCast_nonneg i
          · omega
        | none =>
          by_cases hfz : 80 ≤ (bestScore (fun t => ratio (lowerStr (normWs a)) (lowerStr t)) texts).2
          · have hb := bestScore_bounds (fun t => ratio (lowerStr (normWs a)) (lowerStr t)) texts
              (by omega)
            simp only [find_insertion_point, if_neg hblank, hex, hfz, if_true]
            exact ⟨hb.1, by omega⟩
          · by_cases hpz : 85 ≤ (bestScore
                (fun t => partialRatio (lowerStr (normWs a)) (lowerStr t)) texts).2
            · have hb := bestScore_bounds
                (fun t => partialRatio (lowerStr (normWs a)) (lowerStr t)) texts (by omega)
              simp only [find_insertion_point, if_neg hblank, hex, hfz, if_false, hpz, if_true]
              exact ⟨hb.1, by omega⟩
            · simp only [find_insertion_point, if_neg hblank, hex, hfz, if_false, hpz]
              simpa [fallbackIdx] using hfb
  · rintro (hc | ⟨a, ha, hblank⟩ | ⟨a, ha, hblank, hex, hfz, hpz⟩)
    · subst hc
      simp [find_insertion_point, fallbackIdx]
    · subst ha
      simp [find_insertion_point, hblank, fallbackIdx]
    · subst ha
      simp only [find_insertion_point, if_neg hblank, hex]
      rw [if_neg (by omega), if_neg (by omega)]
      simp [fallbackIdx]

/-- Claim C9 witness: with no anchor and percent 50 over 3 paragraphs the
result is the clamped float fallback and lies in `[0, 2]`. -/
theorem c9_witness :
    (0 ≤ find_insertion_point (fun _ _ => 0) (fun _ _ => 0) ["a", "b", "c"] none 50 1 ∧
      find_insertion_point (fun _ _ => 0) (fun _ _ => 0) ["a", "b", "c"] none 50 1 ≤
        ((["a", "b", "c"] : List String).length : ℤ) - 1) ∧
    find_insertion_point (fun _ _ => 0) (fun _ _ => 0) ["a", "b", "c"] none 50 1 =
      min (pyPercentScaledZ 50 (["a", "b", "c"] : List String).length)
        (((["a", "b", "c"] : List String).length : ℤ) - 1) := by
  have h := c9_total_fallback (fun _ _ => 0) (fun _ _ => 0) ["a", "b", "c"] none 50 1
    (by decide) (by decide) (by decide)
  exact ⟨h.1, h.2 (Or.inl rfl)⟩

/-- Claim C9 counterexample: for `percent = 29` over 100 paragraphs the
claim's exact formula gives `min(⌊29·100/100⌋, 99) = 29`, but the code's
binary64 evaluation of `int((29 / 100) * 100)` yields 28
(`0.29 * 100 = 28.999999999999996`), so `find_insertion_point` returns 28. -/
theorem c9_counterexample :
    find_insertion_point (fun _ _ => 0) (fun _ _ => 0) (List.replicate 100 "p") none 29 1 = 28 ∧
    min ((29 * ((List.replicate 100 "p").length : ℤ)) / 100)
      (((List.replicate 100 "p").length : ℤ) - 1) = 29 ∧
    (28 : ℤ) ≠ 29 := by
  refine ⟨by decide, by decide, by decide⟩

/-! ### Claim C6 -/

/-- Every member of the paragraph list is a paragraph node. -/
theorem parasOf_mem_isPara (doc : List Node) (nd : Node) (h : nd ∈ parasOf doc) :
    nd.isPara = true :=
  (List.mem_filter.mp h).2

/-- Insertions after two *different* target nodes commute, provided neither
inserted node equals the other target (image nodes never equal paragraph
nodes, so this always holds in the injector). -/
theorem insertAfterNode_comm (A B ia ib : Node) (hAB : A ≠ B) (haB : ia ≠ B) (hbA : ib ≠ A) :
    ∀ z : List Node,
      insertAfterNode (insertAfterNode z A ia) B ib =
        insertAfterNode (insertAfterNode z B ib) A ia := by
  intro z
  induction z with
  | nil => simp [insertAfterNode]
  | cons h t ih =>
    by_cases h1 : h = A
    · subst h1
      simp [insertAfterNode, hAB, haB]
    · by_cases h2 : h = B
      · subst h2
        simp [insertAfterNode, Ne.symm hAB, hbA, h1]
      · simp [insertAfterNode, h1, h2, ih]

/-- A Python index that resolves (`pyParaAt` returns `some`) addresses a
member of the paragraph list. -/
theorem pyParaAt_mem (l : List Node) (i : ℤ) (nd : Node)
    (h : pyParaAt l i = some nd) : nd ∈ l := by
  simp only [pyParaAt] at h
  split at h
  · split at h
    · exact (Option.some.inj h) ▸ List.get_mem _ _ _
    · exact Option.noConfusion h
  · split at h
    · exact (Option.some.inj h) ▸ List.get_mem _ _ _
    · exact Option.noConfusion h

/-- When a pair does not raise, the loop body is its pure effect. -/
theorem insertStep_eq_ok (paras0 d : List Node) (pr : ℤ × String)
    (h : raisesAt paras0 pr = false) :
    insertStep paras0 d pr = Except.ok (applyIns paras0 d pr) := by
  by_cases hlt : pr.1 < (paras0.length : ℤ)
  · cases hp : pyParaAt paras0 pr.1 with
    | some para => simp [insertStep, applyIns, hlt, hp]
    | none => simp [raisesAt, hlt, hp] at h
  · simp [insertStep, applyIns, hlt]

/-- If no pair of the list raises, the loop returns the pure left fold. -/
theorem runInsertions_ok (paras0 : List Node) (l : List (ℤ × String)) :
    ∀ d : List Node, (∀ pr ∈ l, raisesAt paras0 pr = false) →
      runInsertions paras0 d l = Except.ok (l.foldl (applyIns paras0) d) := by
  induction l with
  | nil => intro d _; rfl
  | cons pr rest ih =>
    intro d h
    have h0 : raisesAt paras0 pr = false := h pr (List.mem_cons_self _ _)
    simp only [runInsertions, insertStep_eq_ok paras0 d pr h0, List.foldl_cons]
    exact ih _ fun q hq => h q (List.mem_cons_of_mem _ hq)

/-- If some pair of the list raises, the whole loop raises the
`IndexError`, regardless of the document state and of where in the list
the raising pair sits — so both insertion orders fail identically. -/
theorem runInsertions_err (paras0 : List Node) (l : List (ℤ × String)) :
    ∀ d : List Node, (∃ pr ∈ l, raisesAt paras0 pr = true) →
      runInsertions paras0 d l = Except.error "IndexError: list index out of range" := by
  induction l with
  | nil =>
    intro d h
    exact absurd h (by simp)
  | cons pr rest ih =>
    intro d h
    by_cases h0 : raisesAt paras0 pr = true
    · have hlt : pr.1 < (paras0.length : ℤ) := by
        have h1 := h0
        simp only [raisesAt, Bool.and_eq_true, decide_eq_true_eq] at h1
        exact h1.1
      have hnone : pyParaAt paras0 pr.1 = none := by
        have h1 := h0
        simp only [raisesAt, Bool.and_eq_true, Option.isNone_iff_eq_none] at h1
        exact h1.2
      simp [runInsertions, insertStep, hlt, hnone]
    · have h0' : raisesAt paras0 pr = false := by
        cases hb : raisesAt paras0 pr
        · rfl
        · exact absurd hb h0
      simp only [runInsertions, insertStep_eq_ok paras0 d pr h0']
      apply ih
      rcases h with ⟨q, hq, hrq⟩
      rcases List.mem_cons.mp hq with hq1 | hq2
      · exact absurd (hq1 ▸ hrq) h0
      · exact ⟨q, hq2, hrq⟩

/-- Folding over an `orderedInsert` equals folding the inserted element
first, provided the fold function commutes with every element the
insertion skips over (all of which have a strictly larger key). -/
theorem foldl_orderedInsert (f : List Node → ℤ × String → List Node)
    (a : ℤ × String) :
    ∀ l : List (ℤ × String),
      (∀ b ∈ l, a.1 < b.1 → ∀ z, f (f z a) b = f (f z b) a) →
      ∀ d, List.foldl f d (List.orderedInsert (fun x y => y.1 ≤ x.1) a l) =
        List.foldl f (f d a) l := by
  intro l
  induction l with
  | nil => intro _ d; rfl
  | cons b t ih =>
    intro comm d
    by_cases hr : b.1 ≤ a.1
    · simp [List.orderedInsert, hr]
    · have hlt : a.1 < b.1 := not_le.mp hr
      simp only [List.orderedInsert, if_neg hr, List.foldl_cons]
      rw [ih (fun c hc hac z => comm c (List.mem_cons_of_mem _ hc) hac z) (f d b)]
      rw [comm b (List.mem_cons_self _ _) hlt d]

/-- Folding over the stable descending sort equals folding the original
order, provided the fold function commutes on elements with *different*
keys: a stable sort never swaps elements with equal keys, so no
commutation is needed for them (this is what makes duplicate insertion
indices harmless). -/
theorem foldl_insertionSort (f : List Node → ℤ × String → List Node) :
    ∀ l : List (ℤ × String),
      (∀ x ∈ l, ∀ y ∈ l, x.1 ≠ y.1 → ∀ z, f (f z x) y = f (f z y) x) →
      ∀ d, List.foldl f d (List.insertionSort (fun x y => y.1 ≤ x.1) l) =
        List.foldl f d l := by
  intro l
  induction l with
  | nil => intro _ d; rfl
  | cons a t ih =>
    intro comm d
    have hcomm : ∀ b ∈ List.insertionSort (fun x y => y.1 ≤ x.1) t, a.1 < b.1 →
        ∀ z, f (f z a) b = f (f z b) a := by
      intro b hb hab z
      have hb' : b ∈ t := ((List.perm_insertionSort (fun x y => y.1 ≤ x.1) t).mem_iff).mp hb
      exact comm a (List.mem_cons_self _ _) b (List.mem_cons_of_mem _ hb') (ne_of_lt hab) z
    simp only [List.insertionSort, List.foldl_cons]
    rw [foldl_orderedInsert f a (List.insertionSort (fun x y => y.1 ≤ x.1) t) hcomm d]
    exact ih (fun x hx y hy hne z =>
      comm x (List.mem_cons_of_mem _ hx) y (List.mem_cons_of_mem _ hy) hne z) (f d a)

/-- Claim C6 (amended): with all insertion indices computed against the
original paragraph list, and no two *distinct* indices resolving to the
same paragraph (which only Python's negative-index wrap-around can cause,
e.g. `-1` aliasing `len - 1`), performing the insertions in descending
index order (`insertSortedImages`, the code's behaviour) yields exactly
the same document as inserting each image directly after its computed
paragraph of the original list in the given order
(`directInsertOriginal`): duplicate indices are covered (the sort is
stable), and an index below `-len` raises the same `IndexError` either
way.  Without the no-aliasing hypothesis the equality fails
(`c6_counterexample`). -/
theorem c6_descending_insertion (doc : List Node) (pairs : List (ℤ × String))
    (halias : ∀ x ∈ pairs, ∀ y ∈ pairs,
      (pyParaAt (parasOf doc) x.1).isSome = true →
      pyParaAt (parasOf doc) x.1 = pyParaAt (parasOf doc) y.1 → x.1 = y.1) :
    insertSortedImages doc pairs = directInsertOriginal doc pairs := by
  unfold insertSortedImages directInsertOriginal sortDescIns
  by_cases hraise : ∃ pr ∈ pairs, raisesAt (parasOf doc) pr = true
  · have h1 : ∃ pr ∈ List.insertionSort (fun a b => b.1 ≤ a.1) pairs,
        raisesAt (parasOf doc) pr = true := by
      rcases hraise with ⟨pr, hpr, hr⟩
      exact ⟨pr, ((List.perm_insertionSort (fun a b => b.1 ≤ a.1) pairs).mem_iff).mpr hpr, hr⟩
    rw [runInsertions_err (parasOf doc) _ doc h1,
      runInsertions_err (parasOf doc) pairs doc hraise]
  · have hok : ∀ pr ∈ pairs, raisesAt (parasOf doc) pr = false := by
      intro pr hpr
      cases hb : raisesAt (parasOf doc) pr
      · rfl
      · exact absurd ⟨pr, hpr, hb⟩ hraise
    have hok' : ∀ pr ∈ List.insertionSort (fun a b => b.1 ≤ a.1) pairs,
        raisesAt (parasOf doc) pr = false := fun pr hpr =>
      hok pr (((List.perm_insertionSort (fun a b => b.1 ≤ a.1) pairs).mem_iff).mp hpr)
    rw [runInsertions_ok (parasOf doc) _ doc hok',
      runInsertions_ok (parasOf doc) pairs doc hok]
    congr 1
    refine foldl_insertionSort (applyIns (parasOf doc)) pairs ?_ doc
    intro x hx y hy hne z
    by_cases hgx : x.1 < ((parasOf doc).length : ℤ)
    · by_cases hgy : y.1 < ((parasOf doc).length : ℤ)
      · cases hpx : pyParaAt (parasOf doc) x.1 with
        | none =>
          exact absurd (hok x hx) (by simp [raisesAt, hgx, hpx])
        | some A =>
          cases hpy : pyParaAt (parasOf doc) y.1 with
          | none =>
            exact absurd (hok y hy) (by simp [raisesAt, hgy, hpy])
          | some B =>
            have hAB : A ≠ B := by
              intro he
              exact hne (halias x hx y hy (by rw [hpx]; rfl) (by rw [hpx, hpy, he]))
            have hAp : A.isPara = true := parasOf_mem_isPara doc A (pyParaAt_mem _ _ _ hpx)
            have hBp : B.isPara = true := parasOf_mem_isPara doc B (pyParaAt_mem _ _ _ hpy)
            have haB : Node.img x.2 ≠ B := by
              intro he; rw [← he] at hBp; simp [Node.isPara] at hBp
            have hbA : Node.img y.2 ≠ A := by
              intro he; rw [← he] at hAp; simp [Node.isPara] at hAp
            simp only [applyIns, if_pos hgx, if_pos hgy, hpx, hpy]
            exact insertAfterNode_comm A B (Node.img x.2) (Node.img y.2) hAB haB hbA z
      · simp only [applyIns, if_neg hgy]
    · simp only [applyIns, if_neg hgx]

/-- Claim C6 witness: the spec's scenario — images at indices `{1, 3}` of a
5-paragraph document — inserted in descending order equals direct insertion
against the original list, producing the expected document; and a
duplicated index (two images both at index 1) also satisfies the
equality. -/
theorem c6_witness :
    (insertSortedImages
      [Node.para 0 "p0", Node.para 1 "p1", Node.para 2 "p2", Node.para 3 "p3", Node.para 4 "p4"]
      [((1 : ℤ), "a.png"), ((3 : ℤ), "b.png")] =
    directInsertOriginal
      [Node.para 0 "p0", Node.para 1 "p1", Node.para 2 "p2", Node.para 3 "p3", Node.para 4 "p4"]
      [((1 : ℤ), "a.png"), ((3 : ℤ), "b.png")] ∧
    directInsertOriginal
      [Node.para 0 "p0", Node.para 1 "p1", Node.para 2 "p2", Node.para 3 "p3", Node.para 4 "p4"]
      [((1 : ℤ), "a.png"), ((3 : ℤ), "b.png")] =
      Except.ok [Node.para 0 "p0", Node.para 1 "p1", Node.img "a.png", Node.para 2 "p2",
        Node.para 3 "p3", Node.img "b.png", Node.para 4 "p4"]) ∧
    insertSortedImages
      [Node.para 0 "p0", Node.para 1 "p1", Node.para 2 "p2", Node.para 3 "p3", Node.para 4 "p4"]
      [((1 : ℤ), "a.png"), ((1 : ℤ), "c.png")] =
    directInsertOriginal
      [Node.para 0 "p0", Node.para 1 "p1", Node.para 2 "p2", Node.para 3 "p3", Node.para 4 "p4"]
      [((1 : ℤ), "a.png"), ((1 : ℤ), "c.png")] :=
  ⟨⟨c6_descending_insertion
      [Node.para 0 "p0", Node.para 1 "p1", Node.para 2 "p2", Node.para 3 "p3", Node.para 4 "p4"]
      [((1 : ℤ), "a.png"), ((3 : ℤ), "b.png")] (by decide), rfl⟩,
    c6_descending_insertion
      [Node.para 0 "p0", Node.para 1 "p1", Node.para 2 "p2", Node.para 3 "p3", Node.para 4 "p4"]
      [((1 : ℤ), "a.png"), ((1 : ℤ), "c.png")] (by decide)⟩

/-- Claim C6 counterexample: over a 2-paragraph document the pairs
`[(-1, b), (1, a)]` alias the same paragraph, because Python's
`paragraphs[-1]` wraps around to the last paragraph while the guard only
checks `para_idx < len` (index `-1` is reachable: a negative
`location_percent` from the scene-analysis output makes
`find_insertion_point` return `min(int((p / 100) * len), len - 1) < 0`).
Descending-order insertion processes `a` first and then puts `b` directly
after the shared paragraph, yielding `p0, p1, b, a`, while direct
insertion against the original list in the given order yields
`p0, p1, a, b`: the two documents differ, refuting the claim's unrestricted
equality. -/
theorem c6_counterexample :
    insertSortedImages [Node.para 0 "p0", Node.para 1 "p1"]
      [((-1 : ℤ), "b.png"), ((1 : ℤ), "a.png")] =
      Except.ok [Node.para 0 "p0", Node.para 1 "p1", Node.img "b.png", Node.img "a.png"] ∧
    directInsertOriginal [Node.para 0 "p0", Node.para 1 "p1"]
      [((-1 : ℤ), "b.png"), ((1 : ℤ), "a.png")] =
      Except.ok [Node.para 0 "p0", Node.para 1 "p1", Node.img "a.png", Node.img "b.png"] ∧
    insertSortedImages [Node.para 0 "p0", Node.para 1 "p1"]
      [((-1 : ℤ), "b.png"), ((1 : ℤ), "a.png")] ≠
      directInsertOriginal [Node.para 0 "p0", Node.para 1 "p1"]
        [((-1 : ℤ), "b.png"), ((1 : ℤ), "a.png")] := by
  refine ⟨rfl, rfl, fun h => ?_⟩
  exact absurd (Except.ok.inj h) (by decide)

/-! ### Orchestrator lemmas -/

theorem fileExists_iff_mem (fs : FS) (p : String) : fileExists fs p = true ↔ p ∈ fs.files := by
  simp [fileExists, List.elem_iff, List.contains]

theorem addFile_mem_self (fs : FS) (p : String) : p ∈ (addFile fs p).files := by
  unfold addFile
  split
  · rename_i h
    simpa [List.elem_iff, List.contains] using h
  · simp

theorem addFile_mono (fs : FS) (p q : String) (h : q ∈ fs.files) : q ∈ (addFile fs p).files := by
  unfold addFile
  split
  · exact h
  · simp [h]

theorem forceCleanup_files (fs : FS) (ch : ℕ) :
    ∀ p ∈ (forceCleanup fs ch).files, p ∈ fs.files := by
  intro p hp
  cases hm : fs.meta with
  | none => simp only [forceCleanup, hm] at hp; exact hp
  | some m =>
    cases hl : lookupMeta m ch with
    | none => simp only [forceCleanup, hm, hl] at hp; exact hp
    | some cd =>
      simp only [forceCleanup, hm, hl] at hp
      exact (List.mem_filter.mp hp).1

theorem fallbackScenes_length (n : ℕ) : (fallbackScenes n).length = n := by
  simp [fallbackScenes]

theorem padScenes_take_length (n : ℕ) (scenes : List RawScene) :
    ((padScenes n scenes).take n).length = n := by
  simp only [List.length_take, padScenes, List.length_append, List.length_map,
    List.length_range']
  omega

/-- On non-blank text, a returning `summarize_scenes` yields exactly the
requested number of scenes (and reports one external text call). -/
theorem summarize_ok_one_call (se : SummarizeEnv) (text : String) (n : ℕ)
    (scenes : List RawScene) (tc : ℕ)
    (hb : pyBlank text = false)
    (h : summarize_scenes se text n = (Except.ok scenes, tc)) :
    scenes.length = n ∧ tc = 1 := by
  cases se with
  | err m => simp [summarize_scenes, hb] at h
  | malformed =>
    simp only [summarize_scenes, hb, Bool.false_eq_true, if_false, Prod.mk.injEq,
      Except.ok.injEq] at h
    obtain ⟨h1, h2⟩ := h
    subst h2
    exact ⟨h1 ▸ fallbackScenes_length n, rfl⟩
  | parsed l =>
    simp only [summarize_scenes, hb, Bool.false_eq_true, if_false, Prod.mk.injEq,
      Except.ok.injEq] at h
    obtain ⟨h1, h2⟩ := h
    subst h2
    exact ⟨h1 ▸ padScenes_take_length n (l.map normalizeScene), rfl⟩

/-- Success specification of the per-scene loop: one image path is added
per scene, the file set only grows, the accumulated paths all exist on
disk afterwards, and one image call is made per scene. -/
theorem genLoop_ok (env : Env) (ch : ℕ) (ti : String) (n : ℕ) :
    ∀ (scenes : List RawScene) (i : ℕ) (paths : List String) (locs : List ℤ)
      (ancs : List (Option String)) (fs : FS) (c : ℕ)
      (paths' : List String) (locs' : List ℤ) (ancs' : List (Option String)) (fs' : FS) (c' : ℕ),
      genLoop env ch ti n scenes i paths locs ancs fs c =
        (Except.ok (paths', locs', ancs'), fs', c') →
      paths'.length = paths.length + scenes.length ∧
      (∀ p ∈ fs.files, p ∈ fs'.files) ∧
      ((∀ p ∈ paths, p ∈ fs.files) → ∀ p ∈ paths', p ∈ fs'.files) ∧
      c' = c + scenes.length := by
  intro scenes
  induction scenes with
  | nil =>
    intro i paths locs ancs fs c paths' locs' ancs' fs' c' h
    simp only [genLoop, Prod.mk.injEq, Except.ok.injEq] at h
    obtain ⟨⟨hp, _, _⟩, h2, h3⟩ := h
    subst h2
    subst h3
    subst hp
    exact ⟨by simp, fun p hp => hp, fun hm => hm, by simp⟩
  | cons s rest ih =>
    intro i paths locs ancs fs c paths' locs' ancs' fs' c' h
    simp only [genLoop] at h
    cases hsn : s.scene_number with
    | none => rw [hsn] at h; simp at h
    | some sn =>
      rw [hsn] at h
      cases hsm : s.summary with
      | none => rw [hsm] at h; simp at h
      | some summ =>
        rw [hsm] at h
        simp only at h
        cases himg : generate_image (env.image c) with
        | error m => rw [himg] at h; simp at h
        | ok b =>
          rw [himg] at h
          simp only at h
          by_cases hsz : b.size < 1000
          · rw [if_pos hsz] at h; simp at h
          · rw [if_neg hsz] at h
            cases hsv : save_image fs b ch sn ti with
            | error m => rw [hsv] at h; simp at h
            | ok pr =>
              rw [hsv] at h
              obtain ⟨path, fs2⟩ := pr
              simp only at h
              have hspec := ih (i + 1) (paths ++ [path]) (locs ++ [s.location_percent.getD
                  (Int.ofNat (pyHalfPercent i n))]) (ancs ++ [s.insert_after_text])
                (save_image_metadata fs2 ch (paths ++ [path])
                  (some (locs ++ [s.location_percent.getD (Int.ofNat (pyHalfPercent i n))]))
                  (some (ancs ++ [s.insert_after_text])) "generating" none
                  (some (paths ++ [path]).length)) (c + 1) paths' locs' ancs' fs' c' h
              obtain ⟨hlen, hmono, hmem, hc⟩ := hspec
              -- save_image succeeded, so it wrote the file: fs2 = addFile fs path
              have hpair : path = imagePath ch sn ti ∧ addFile fs (imagePath ch sn ti) = fs2 := by
                unfold save_image at hsv
                rw [if_neg hsz] at hsv
                by_cases hpng : b.validPng
                · rw [if_neg (by simp [hpng])] at hsv
                  have h0 := Except.ok.inj hsv
                  simp only [Prod.mk.injEq] at h0
                  exact ⟨h0.1.symm, h0.2⟩
                · rw [if_pos (by simp [hpng])] at hsv
                  simp at hsv
              have hfs2 : fs2 = addFile fs path := by
                rw [hpair.1]
                exact hpair.2.symm
              have hfiles2 : (save_image_metadata fs2 ch (paths ++ [path])
                  (some (locs ++ [s.location_percent.getD (Int.ofNat (pyHalfPercent i n))]))
                  (some (ancs ++ [s.insert_after_text])) "generating" none
                  (some (paths ++ [path]).length)).files = fs2.files :=
                save_image_metadata_files _ _ _ _ _ _ _ _
              refine ⟨by simp [hlen]; omega, ?_, ?_, by simp [hc]; omega⟩
              · intro p hp
                apply hmono
                rw [hfiles2, hfs2]
                exact addFile_mono fs path p hp
              · intro hall p hp
                apply hmem ?_ p hp
                intro q hq
                rw [hfiles2, hfs2]
                rcases List.mem_append.mp hq with hq | hq
                · exact addFile_mono fs path q (hall q hq)
                · rw [List.mem_singleton.mp hq]
                  exact addFile_mem_self fs path

/-- Failure specification of the per-scene loop: if the first `j` image
attempts succeed and the `(j+1)`-st fails (service error, no payload,
undersized payload, or invalid PNG), the loop raises after exactly `j + 1`
image calls. -/
theorem genLoop_err (env : Env) (ch : ℕ) (ti : String) (n : ℕ) :
    ∀ (scenes : List RawScene) (j i : ℕ) (paths : List String) (locs : List ℤ)
      (ancs : List (Option String)) (fs : FS) (c : ℕ),
      (∀ s ∈ scenes, s.scene_number.isSome ∧ s.summary.isSome) →
      j < scenes.length →
      (∀ k, k < j → attemptOk (env.image (c + k)) = true) →
      attemptOk (env.image (c + j)) = false →
      ∃ m fs', genLoop env ch ti n scenes i paths locs ancs fs c = (.error m, fs', c + j + 1) := by
  intro scenes
  induction scenes with
  | nil =>
    intro j i paths locs ancs fs c _ hj _ _
    exact absurd hj (by simp)
  | cons s rest ih =>
    intro j i paths locs ancs fs c hfields hj hok hfail
    obtain ⟨hsn', hsm'⟩ := hfields s (List.mem_cons_self s rest)
    obtain ⟨sn, hsn⟩ := Option.isSome_iff_exists.mp hsn'
    obtain ⟨summ, hsm⟩ := Option.isSome_iff_exists.mp hsm'
    cases j with
    | zero =>
      -- the very first attempt fails
      have hfail0 : attemptOk (env.image c) = false := by simpa using hfail
      cases himg : env.image c with
      | err m =>
        simp only [genLoop, hsn, hsm, generate_image, himg]
        exact ⟨_, _, rfl⟩
      | noParts =>
        simp only [genLoop, hsn, hsm, generate_image, himg]
        exact ⟨_, _, rfl⟩
      | textOnly np txt =>
        simp only [genLoop, hsn, hsm, generate_image, himg]
        exact ⟨_, _, rfl⟩
      | ok b =>
        rw [himg] at hfail0
        simp only [attemptOk, Bool.and_eq_false_iff, decide_eq_false_iff_not, not_le] at hfail0
        by_cases hsz : b.size < 1000
        · simp only [genLoop, hsn, hsm, generate_image, himg]
          rw [if_pos hsz]
          exact ⟨_, _, rfl⟩
        · have hpng : b.validPng = false := by
            rcases hfail0 with h | h
            · omega
            · exact h
          simp only [genLoop, hsn, hsm, generate_image, himg]
          rw [if_neg hsz]
          simp only [if_neg hsz]
          unfold save_image
          rw [if_neg (by omega), if_pos (by simp [hpng])]
          exact ⟨_, _, rfl⟩
    | succ j' =>
      -- the first attempt succeeds; recurse
      have hok0 : attemptOk (env.image c) = true := by simpa using hok 0 (Nat.succ_pos j')
      cases himg : env.image c with
      | err m => rw [himg] at hok0; simp [attemptOk] at hok0
      | noParts => rw [himg] at hok0; simp [attemptOk] at hok0
      | textOnly np txt => rw [himg] at hok0; simp [attemptOk] at hok0
      | ok b =>
        rw [himg] at hok0
        simp only [attemptOk, Bool.and_eq_true, decide_eq_true_eq] at hok0
        obtain ⟨hsz, hpng⟩ := hok0
        have hrest := ih j' (i + 1) (paths ++ [imagePath ch sn ti])
          (locs ++ [s.location_percent.getD (Int.ofNat (pyHalfPercent i n))])
          (ancs ++ [s.insert_after_text])
          (save_image_metadata (addFile fs (imagePath ch sn ti)) ch
            (paths ++ [imagePath ch sn ti])
            (some (locs ++ [s.location_percent.getD (Int.ofNat (pyHalfPercent i n))]))
            (some (ancs ++ [s.insert_after_text])) "generating" none
            (some (paths ++ [imagePath ch sn ti]).length)) (c + 1)
          (fun t ht => hfields t (List.mem_cons_of_mem s ht))
          (by simp only [List.length_cons] at hj; omega)
          (fun k hk => by
            have := hok (k + 1) (Nat.succ_lt_succ hk)
            simpa [Nat.add_assoc, Nat.add_comm 1 k] using this)
          (by simpa [Nat.add_assoc, Nat.add_comm 1 j'] using hfail)
        obtain ⟨m, fs', hrec⟩ := hrest
        refine ⟨m, fs', ?_⟩
        simp only [genLoop, hsn, hsm, generate_image, himg]
        rw [if_neg (by omega)]
        simp only [if_neg (by omega : ¬ b.size < 1000)]
        unfold save_image
        rw [if_neg (by omega), if_neg (by simp [hpng])]
        simp only
        rw [hrec]
        have hcc : c + 1 + j' + 1 = c + (j' + 1) + 1 := by omega
        rw [hcc]

/-- Every user-facing classification of an error message is non-empty. -/
theorem classifyError_ne_empty (m : String) : classifyError m ≠ "" := by
  unfold classifyError
  split
  · split
    · decide
    · decide
  · split
    · rename_i h1 h2
      intro he
      subst he
      exact absurd h2 (by decide)
    · intro he
      have hlen := congrArg String.length he
      rw [String.length_append] at hlen
      have h18 : String.length "Generation error: " = 18 := by decide
      rw [h18] at hlen
      simp at hlen

/-- The orchestrator short-circuits on a cache hit. -/
theorem generate_eq_hit (env : Env) (fs : FS) (ch : ℕ) (text title : String) (n : ℕ)
    (c : List String) (hc : get_cached_images fs ch = some c)
    (hg : (!c.isEmpty && c.length == n) = true) :
    generate_illustrations_for_chapter env fs ch text title false n =
      ⟨Except.ok c, fs, 0, 0⟩ := by
  simp [generate_illustrations_for_chapter, hc, hg]

/-- With a cached-but-rejected list, the orchestrator runs the body with an
implicit force. -/
theorem generate_eq_body_some (env : Env) (fs : FS) (ch : ℕ) (text title : String) (n : ℕ)
    (c : List String) (hc : get_cached_images fs ch = some c)
    (hg : (!c.isEmpty && c.length == n) = false) :
    generate_illustrations_for_chapter env fs ch text title false n =
      generateBody env fs ch text title (!c.isEmpty) n := by
  simp [generate_illustrations_for_chapter, hc, hg]

/-- With no cached record, the orchestrator runs the body unforced. -/
theorem generate_eq_body_none (env : Env) (fs : FS) (ch : ℕ) (text title : String) (n : ℕ)
    (hc : get_cached_images fs ch = none) :
    generate_illustrations_for_chapter env fs ch text title false n =
      generateBody env fs ch text title false n := by
  simp [generate_illustrations_for_chapter, hc]

/-- Shape of a successful body run: the returned paths come from a
successful loop over the summarised scenes, and the final state is the
`completed` write. -/
theorem generateBody_ok (env : Env) (fs : FS) (ch : ℕ) (text title : String)
    (force : Bool) (n : ℕ) (paths : List String)
    (h : (generateBody env fs ch text title force n).result = Except.ok paths) :
    ∃ scenes tc fs3 locs ancs ic,
      summarize_scenes env.summarize text n = (Except.ok scenes, tc) ∧
      genLoop env ch title n scenes 0 [] [] []
        (save_image_metadata (if force then forceCleanup fs ch else fs) ch [] none none
          "generating" none (some 0)) 0 = (Except.ok (paths, locs, ancs), fs3, ic) ∧
      generateBody env fs ch text title force n =
        ⟨Except.ok paths,
          save_image_metadata fs3 ch paths (some locs) (some ancs) "completed" none none,
          tc, ic⟩ := by
  cases hsum : summarize_scenes env.summarize text n with
  | mk res tc =>
    cases res with
    | error m =>
      exfalso
      unfold generateBody at h
      rw [hsum] at h
      simp [errorOut] at h
    | ok scenes =>
      cases hloop : genLoop env ch title n scenes 0 [] [] []
          (save_image_metadata (if force then forceCleanup fs ch else fs) ch [] none none
            "generating" none (some 0)) 0 with
      | mk lres rest =>
        obtain ⟨fs3, ic⟩ := rest
        cases lres with
        | error m =>
          exfalso
          unfold generateBody at h
          rw [hsum] at h
          simp only [] at h
          rw [hloop] at h
          simp [errorOut] at h
        | ok acc =>
          obtain ⟨paths', locs, ancs⟩ := acc
          have hbody : generateBody env fs ch text title force n =
              ⟨Except.ok paths',
                save_image_metadata fs3 ch paths' (some locs) (some ancs) "completed" none none,
                tc, ic⟩ := by
            unfold generateBody
            rw [hsum]
            simp only []
            rw [hloop]
          have hp : paths' = paths := by
            rw [hbody] at h
            simpa using h
          subst hp
          exact ⟨scenes, tc, fs3, locs, ancs, ic, rfl, hloop, hbody⟩

/-- After the final `completed` write of a successful run whose paths all
exist, the cache read returns exactly those paths. -/
theorem completed_state_hit (fs3 : FS) (ch : ℕ) (paths : List String)
    (locs : List ℤ) (ancs : List (Option String))
    (hne : paths ≠ [])
    (hmem : ∀ p ∈ paths, p ∈ fs3.files) :
    get_cached_images
      (save_image_metadata fs3 ch paths (some locs) (some ancs) "completed" none none) ch =
      some paths := by
  set fsF := save_image_metadata fs3 ch paths (some locs) (some ancs) "completed" none none with hF
  have hmeta : fsF.meta = some (updateMeta (fs3.meta.getD []) ch
      (ChapterData.record (savedRecord paths (some locs) (some ancs) "completed" none none))) :=
    rfl
  have hlook : lookupMeta (updateMeta (fs3.meta.getD []) ch
      (ChapterData.record (savedRecord paths (some locs) (some ancs) "completed" none none))) ch =
      some (ChapterData.record (savedRecord paths (some locs) (some ancs) "completed" none none)) :=
    lookupMeta_updateMeta_self _ _ _
  have hchar := get_cached_images_record_eq fsF _ ch _ hmeta hlook
  rw [hchar]
  rw [if_pos ?_]
  · rfl
  · refine ⟨rfl, by simpa [savedRecord] using hne, ?_⟩
    intro p hp
    have hpmem : p ∈ fsF.files := by
      rw [hF, save_image_metadata_files]
      exact hmem p (by simpa [savedRecord] using hp)
    exact (fileExists_iff_mem fsF p).mpr hpmem

/-! ### Claim C3 -/

/-- Claim C3: if, in a run that reaches generation, the first `j` per-scene
image steps succeed and the `(j+1)`-st fails (service failure, missing
payload, a payload below the 1000-byte floor, or an invalid PNG), then no
further scenes are attempted (exactly `j + 1` image calls are made), the
run raises, and the persisted record for the chapter has `status = "error"`
with a user-facing message; no `completed` record is left by such a run. -/
theorem c3_abort_on_scene_failure (env : Env) (fs : FS) (ch : ℕ)
    (chapter_text title : String) (n : ℕ) (scenes : List RawScene) (j : ℕ)
    (hnohit : cacheHitFor fs ch n = false)
    (hsum : summarize_scenes env.summarize chapter_text n = (Except.ok scenes, 1))
    (hfields : ∀ s ∈ scenes, s.scene_number.isSome ∧ s.summary.isSome)
    (hj : j < scenes.length)
    (hok : ∀ k, k < j → attemptOk (env.image k) = true)
    (hfail : attemptOk (env.image j) = false) :
    ∃ m r,
      (generate_illustrations_for_chapter env fs ch chapter_text title false n).result =
        Except.error m ∧
      readRecord (generate_illustrations_for_chapter env fs ch chapter_text title false n).fs
        ch = some (ChapterData.record r) ∧
      r.status = "error" ∧ r.error.isSome ∧
      (generate_illustrations_for_chapter env fs ch chapter_text title false n).imageCalls =
        j + 1 := by
  -- the run reaches the body (no cache hit), possibly with an implicit force
  have hbody : ∃ force, generate_illustrations_for_chapter env fs ch chapter_text title false n =
      generateBody env fs ch chapter_text title force n := by
    cases hc : get_cached_images fs ch with
    | none => exact ⟨false, generate_eq_body_none env fs ch chapter_text title n hc⟩
    | some c =>
      have hg : (!c.isEmpty && c.length == n) = false := by
        have := hnohit
        unfold cacheHitFor at this
        rw [hc] at this
        exact this
      exact ⟨!c.isEmpty, generate_eq_body_some env fs ch chapter_text title n c hc hg⟩
  obtain ⟨force, hgen⟩ := hbody
  rw [hgen]
  -- the loop fails after j + 1 calls
  obtain ⟨m, fs', hloop⟩ := genLoop_err env ch title n scenes j 0 [] [] []
    (save_image_metadata (if force then forceCleanup fs ch else fs) ch [] none none
      "generating" none (some 0)) 0 hfields hj (by simpa using hok) (by simpa using hfail)
  have hbodyeq : generateBody env fs ch chapter_text title force n =
      errorOut m fs' ch 1 (0 + j + 1) := by
    unfold generateBody
    rw [hsum]
    simp only []
    rw [hloop]
  rw [hbodyeq]
  refine ⟨m, savedRecord [] none none "error" (some (classifyError m)) none, rfl, ?_, rfl, ?_, ?_⟩
  · exact readRecord_save_self fs' ch [] none none "error" (some (classifyError m)) none
  · simp [savedRecord, truthyStr, classifyError_ne_empty m]
  · simp [errorOut]

/-- Claim C3 witness: the spec's scenario — the second scene's payload is
500 bytes (below the 1000-byte floor) — aborts a 3-scene run after exactly
2 image calls, leaving an `error` record. -/
theorem c3_witness :
    ∃ m r,
      (generate_illustrations_for_chapter
        ⟨SummarizeEnv.parsed
          [⟨some 1, some "Scene one", some "anchor one", some 10⟩,
           ⟨some 2, some "Scene two", some "anchor two", some 50⟩,
           ⟨some 3, some "Scene three", some "anchor three", some 90⟩],
          fun c => if c = 0 then ImgResult.ok ⟨2000, true, "hdr"⟩
                   else ImgResult.ok ⟨500, true, "hdr"⟩⟩
        ⟨none, []⟩ 0 "Some chapter text." "" false 3).result = Except.error m ∧
      readRecord (generate_illustrations_for_chapter
        ⟨SummarizeEnv.parsed
          [⟨some 1, some "Scene one", some "anchor one", some 10⟩,
           ⟨some 2, some "Scene two", some "anchor two", some 50⟩,
           ⟨some 3, some "Scene three", some "anchor three", some 90⟩],
          fun c => if c = 0 then ImgResult.ok ⟨2000, true, "hdr"⟩
                   else ImgResult.ok ⟨500, true, "hdr"⟩⟩
        ⟨none, []⟩ 0 "Some chapter text." "" false 3).fs 0 = some (ChapterData.record r) ∧
      r.status = "error" ∧ r.error.isSome ∧
      (generate_illustrations_for_chapter
        ⟨SummarizeEnv.parsed
          [⟨some 1, some "Scene one", some "anchor one", some 10⟩,
           ⟨some 2, some "Scene two", some "anchor two", some 50⟩,
           ⟨some 3, some "Scene three", some "anchor three", some 90⟩],
          fun c => if c = 0 then ImgResult.ok ⟨2000, true, "hdr"⟩
                   else ImgResult.ok ⟨500, true, "hdr"⟩⟩
        ⟨none, []⟩ 0 "Some chapter text." "" false 3).imageCalls = 1 + 1 :=
  c3_abort_on_scene_failure
    ⟨SummarizeEnv.parsed
      [⟨some 1, some "Scene one", some "anchor one", some 10⟩,
       ⟨some 2, some "Scene two", some "anchor two", some 50⟩,
       ⟨some 3, some "Scene three", some "anchor three", some 90⟩],
      fun c => if c = 0 then ImgResult.ok ⟨2000, true, "hdr"⟩
               else ImgResult.ok ⟨500, true, "hdr"⟩⟩
    ⟨none, []⟩ 0 "Some chapter text." "" 3
    [⟨some 1, some "Scene one", some "anchor one", some 10⟩,
     ⟨some 2, some "Scene two", some "anchor two", some 50⟩,
     ⟨some 3, some "Scene three", some "anchor three", some 90⟩] 1
    rfl rfl (by decide) (by decide)
    (fun k hk => by
      have hk0 : k = 0 := by omega
      subst hk0
      rfl)
    rfl

/-! ### Claim C2 -/

/-- Core of claim C2: after a successful body run (no cache short-circuit
on the first call), a second unforced call with the same arguments returns
the same path list with zero external calls, provided `n ≥ 1`. -/
theorem c2_body (env env' : Env) (fs : FS) (ch : ℕ) (text title : String) (force : Bool)
    (n : ℕ) (paths : List String) (hn : 1 ≤ n)
    (h1 : (generateBody env fs ch text title force n).result = Except.ok paths) :
    (generate_illustrations_for_chapter env' (generateBody env fs ch text title force n).fs
      ch text title false n).result = Except.ok paths ∧
    (generate_illustrations_for_chapter env' (generateBody env fs ch text title force n).fs
      ch text title false n).textCalls = 0 ∧
    (generate_illustrations_for_chapter env' (generateBody env fs ch text title force n).fs
      ch text title false n).imageCalls = 0 := by
  obtain ⟨scenes, tc, fs3, locs, ancs, ic, hsum, hloop, hbody⟩ :=
    generateBody_ok env fs ch text title force n paths h1
  rw [hbody]
  by_cases hb : pyBlank text = true
  · -- blank text: the run produced no scenes and an empty path list
    have hsum0 : summarize_scenes env.summarize text n = (Except.ok [], 0) := by
      unfold summarize_scenes
      rw [if_pos hb]
    rw [hsum0] at hsum
    simp only [Prod.mk.injEq, Except.ok.injEq] at hsum
    obtain ⟨hscenes, _⟩ := hsum
    rw [← hscenes] at hloop
    simp only [genLoop, Prod.mk.injEq, Except.ok.injEq] at hloop
    obtain ⟨⟨hpaths, hlocs, hancs⟩, hfs3, _⟩ := hloop
    rw [← hpaths, ← hlocs, ← hancs]
    have hnone : get_cached_images
        (save_image_metadata fs3 ch [] (some []) (some []) "completed" none none) ch = none := by
      have hchar := get_cached_images_record_eq
        (save_image_metadata fs3 ch [] (some []) (some []) "completed" none none)
        (updateMeta (fs3.meta.getD []) ch
          (ChapterData.record (savedRecord [] (some []) (some []) "completed" none none)))
        ch (savedRecord [] (some []) (some []) "completed" none none) rfl
        (lookupMeta_updateMeta_self _ _ _)
      rw [hchar, if_neg (by simp [savedRecord])]
    rw [generate_eq_body_none env'
      (save_image_metadata fs3 ch [] (some []) (some []) "completed" none none)
      ch text title n hnone]
    have hsum2 : summarize_scenes env'.summarize text n = (Except.ok [], 0) := by
      unfold summarize_scenes
      rw [if_pos hb]
    refine ⟨?_, ?_, ?_⟩ <;> simp [generateBody, hsum2, genLoop, ← hpaths]
  · -- non-blank text: the run produced n non-empty existing paths
    have hb' : pyBlank text = false := by
      revert hb
      cases pyBlank text <;> simp
    obtain ⟨hslen, _⟩ := summarize_ok_one_call env.summarize text n scenes tc hb' hsum
    obtain ⟨hplen, _, hmem, _⟩ :=
      genLoop_ok env ch title n scenes 0 [] [] [] _ 0 paths locs ancs fs3 ic hloop
    have hplen' : paths.length = n := by
      rw [hslen] at hplen
      simpa using hplen
    have hmem' : ∀ p ∈ paths, p ∈ fs3.files := hmem (by intro p hp; simp at hp)
    have hpne : paths ≠ [] := by
      intro h0
      rw [h0] at hplen'
      simp at hplen'
      omega
    have hhit := completed_state_hit fs3 ch paths locs ancs hpne hmem'
    rw [generate_eq_hit env' _ ch text title n paths hhit (by simp [hpne, hplen'])]
    exact ⟨rfl, rfl, rfl⟩

/-- Claim C2 (amended): if a non-forced call completes successfully and
`num_images ≥ 1`, then a second call with identical arguments performs
zero external service calls (neither the text nor the image service is
consulted) and returns the identical path list.  (For `num_images = 0`
with non-blank text the claim as stated fails: see `c2_counterexample`.) -/
theorem c2_idempotent (env env' : Env) (fs : FS) (ch : ℕ) (chapter_text title : String)
    (n : ℕ) (paths : List String) (hn : 1 ≤ n)
    (h1 : (generate_illustrations_for_chapter env fs ch chapter_text title false n).result =
      Except.ok paths) :
    (generate_illustrations_for_chapter env'
      (generate_illustrations_for_chapter env fs ch chapter_text title false n).fs
      ch chapter_text title false n).result = Except.ok paths ∧
    (generate_illustrations_for_chapter env'
      (generate_illustrations_for_chapter env fs ch chapter_text title false n).fs
      ch chapter_text title false n).textCalls = 0 ∧
    (generate_illustrations_for_chapter env'
      (generate_illustrations_for_chapter env fs ch chapter_text title false n).fs
      ch chapter_text title false n).imageCalls = 0 := by
  cases hc : get_cached_images fs ch with
  | some c =>
    by_cases hg : (!c.isEmpty && c.length == n) = true
    · have he := generate_eq_hit env fs ch chapter_text title n c hc hg
      rw [he] at h1 ⊢
      have hcp : c = paths := by simpa using h1
      subst hcp
      have he' := generate_eq_hit env' fs ch chapter_text title n c hc hg
      refine ⟨?_, ?_, ?_⟩
      · show (generate_illustrations_for_chapter env' fs ch chapter_text title false n).result =
          Except.ok c
        rw [he']
      · show (generate_illustrations_for_chapter env' fs ch chapter_text title false n).textCalls = 0
        rw [he']
      · show (generate_illustrations_for_chapter env' fs ch chapter_text title false n).imageCalls = 0
        rw [he']
    · have hg' : (!c.isEmpty && c.length == n) = false := by
        revert hg
        cases (!c.isEmpty && c.length == n) <;> simp
      have he := generate_eq_body_some env fs ch chapter_text title n c hc hg'
      rw [he] at h1 ⊢
      exact c2_body env env' fs ch chapter_text title (!c.isEmpty) n paths hn h1
  | none =>
    have he := generate_eq_body_none env fs ch chapter_text title n hc
    rw [he] at h1 ⊢
    exact c2_body env env' fs ch chapter_text title false n paths hn h1

/-- Claim C2 witness: a successful 1-image run over non-blank text is a
pure cache hit on the second call — same single path, zero calls. -/
theorem c2_witness :
    (generate_illustrations_for_chapter
      ⟨SummarizeEnv.malformed, fun _ => ImgResult.err "down"⟩
      (generate_illustrations_for_chapter
        ⟨SummarizeEnv.parsed [⟨some 1, some "S", none, some 50⟩],
          fun _ => ImgResult.ok ⟨4096, true, "hdr"⟩⟩
        ⟨none, []⟩ 0 "A chapter." "" false 1).fs
      0 "A chapter." "" false 1).result = Except.ok ["images/generated_ch0_scene1.png"] ∧
    (generate_illustrations_for_chapter
      ⟨SummarizeEnv.malformed, fun _ => ImgResult.err "down"⟩
      (generate_illustrations_for_chapter
        ⟨SummarizeEnv.parsed [⟨some 1, some "S", none, some 50⟩],
          fun _ => ImgResult.ok ⟨4096, true, "hdr"⟩⟩
        ⟨none, []⟩ 0 "A chapter." "" false 1).fs
      0 "A chapter." "" false 1).textCalls = 0 ∧
    (generate_illustrations_for_chapter
      ⟨SummarizeEnv.malformed, fun _ => ImgResult.err "down"⟩
      (generate_illustrations_for_chapter
        ⟨SummarizeEnv.parsed [⟨some 1, some "S", none, some 50⟩],
          fun _ => ImgResult.ok ⟨4096, true, "hdr"⟩⟩
        ⟨none, []⟩ 0 "A chapter." "" false 1).fs
      0 "A chapter." "" false 1).imageCalls = 0 :=
  c2_idempotent
    ⟨SummarizeEnv.parsed [⟨some 1, some "S", none, some 50⟩],
      fun _ => ImgResult.ok ⟨4096, true, "hdr"⟩⟩
    ⟨SummarizeEnv.malformed, fun _ => ImgResult.err "down"⟩
    ⟨none, []⟩ 0 "A chapter." "" 1 ["images/generated_ch0_scene1.png"]
    (by decide) rfl

/-- Claim C2 counterexample: with `num_images = 0` and non-blank text the
first call succeeds (returning `[]` and leaving a completed record whose
zero files all exist), yet the second identical call consults the
scene-summarisation service again — one external call, not zero (the
returned list is still identical). -/
theorem c2_counterexample :
    (generate_illustrations_for_chapter ⟨SummarizeEnv.parsed [], fun _ => ImgResult.err "x"⟩
      ⟨none, []⟩ 0 "Some text." "" false 0).result = Except.ok [] ∧
    readRecord (generate_illustrations_for_chapter
      ⟨SummarizeEnv.parsed [], fun _ => ImgResult.err "x"⟩
      ⟨none, []⟩ 0 "Some text." "" false 0).fs 0 =
      some (ChapterData.record ⟨[], "completed", 2, none, none, none, none⟩) ∧
    (generate_illustrations_for_chapter ⟨SummarizeEnv.parsed [], fun _ => ImgResult.err "x"⟩
      (generate_illustrations_for_chapter ⟨SummarizeEnv.parsed [], fun _ => ImgResult.err "x"⟩
        ⟨none, []⟩ 0 "Some text." "" false 0).fs
      0 "Some text." "" false 0).result = Except.ok [] ∧
    (generate_illustrations_for_chapter ⟨SummarizeEnv.parsed [], fun _ => ImgResult.err "x"⟩
      (generate_illustrations_for_chapter ⟨SummarizeEnv.parsed [], fun _ => ImgResult.err "x"⟩
        ⟨none, []⟩ 0 "Some text." "" false 0).fs
      0 "Some text." "" false 0).textCalls = 1 :=
  ⟨rfl, rfl, rfl, rfl⟩

/-! ### Claim C7 -/

/-- Claim C7 (amended): for blank (empty or whitespace-only) chapter text,
when the cache does not short-circuit the call,
`generate_illustrations_for_chapter` returns `[]`, makes zero external
text and image service calls, and creates no files on disk (the file set
can only shrink, via the implicit-force cleanup); it does, however, write
the metadata document: the chapter ends with a `completed` record holding
an empty image list.  (The claim's "writes no files" is refuted by
`c7_counterexample`: the metadata file is written.) -/
theorem c7_blank_text (env : Env) (fs : FS) (ch : ℕ) (chapter_text title : String) (n : ℕ)
    (hb : pyBlank chapter_text = true)
    (hnohit : cacheHitFor fs ch n = false) :
    (generate_illustrations_for_chapter env fs ch chapter_text title false n).result =
      Except.ok [] ∧
    (generate_illustrations_for_chapter env fs ch chapter_text title false n).textCalls = 0 ∧
    (generate_illustrations_for_chapter env fs ch chapter_text title false n).imageCalls = 0 ∧
    (∀ p ∈ (generate_illustrations_for_chapter env fs ch chapter_text title false n).fs.files,
      p ∈ fs.files) ∧
    readRecord (generate_illustrations_for_chapter env fs ch chapter_text title false n).fs ch =
      some (ChapterData.record ⟨[], "completed", 2, none, none, none, none⟩) := by
  have hbodye : ∃ force, generate_illustrations_for_chapter env fs ch chapter_text title false n =
      generateBody env fs ch chapter_text title force n := by
    cases hc : get_cached_images fs ch with
    | none => exact ⟨false, generate_eq_body_none env fs ch chapter_text title n hc⟩
    | some c =>
      have hg : (!c.isEmpty && c.length == n) = false := by
        have := hnohit
        unfold cacheHitFor at this
        rw [hc] at this
        exact this
      exact ⟨!c.isEmpty, generate_eq_body_some env fs ch chapter_text title n c hc hg⟩
  obtain ⟨force, hgen⟩ := hbodye
  rw [hgen]
  have hsum0 : summarize_scenes env.summarize chapter_text n = (Except.ok [], 0) := by
    unfold summarize_scenes
    rw [if_pos hb]
  have hbody : generateBody env fs ch chapter_text title force n =
      ⟨Except.ok [],
        save_image_metadata
          (save_image_metadata (if force then forceCleanup fs ch else fs) ch [] none none
            "generating" none (some 0)) ch [] (some []) (some []) "completed" none none,
        0, 0⟩ := by
    unfold generateBody
    rw [hsum0]
    simp only []
    simp only [genLoop]
  rw [hbody]
  refine ⟨rfl, rfl, rfl, ?_, ?_⟩
  · intro p hp
    rw [save_image_metadata_files, save_image_metadata_files] at hp
    cases force with
    | false => exact hp
    | true => exact forceCleanup_files fs ch p hp
  · have := readRecord_save_self
      (save_image_metadata (if force then forceCleanup fs ch else fs) ch [] none none
        "generating" none (some 0)) ch [] (some []) (some []) "completed" none none
    rw [this]
    rfl

/-- Claim C7 witness: whitespace-only chapter text, empty state — the call
returns `[]` with zero external calls and leaves a completed empty record. -/
theorem c7_witness :
    (generate_illustrations_for_chapter ⟨SummarizeEnv.err "down", fun _ => ImgResult.err "down"⟩
      ⟨none, []⟩ 2 "   " "Title" false 3).result = Except.ok [] ∧
    (generate_illustrations_for_chapter ⟨SummarizeEnv.err "down", fun _ => ImgResult.err "down"⟩
      ⟨none, []⟩ 2 "   " "Title" false 3).textCalls = 0 ∧
    (generate_illustrations_for_chapter ⟨SummarizeEnv.err "down", fun _ => ImgResult.err "down"⟩
      ⟨none, []⟩ 2 "   " "Title" false 3).imageCalls = 0 ∧
    readRecord (generate_illustrations_for_chapter
      ⟨SummarizeEnv.err "down", fun _ => ImgResult.err "down"⟩
      ⟨none, []⟩ 2 "   " "Title" false 3).fs 2 =
      some (ChapterData.record ⟨[], "completed", 2, none, none, none, none⟩) := by
  have h := c7_blank_text ⟨SummarizeEnv.err "down", fun _ => ImgResult.err "down"⟩
    ⟨none, []⟩ 2 "   " "Title" 3 (by decide) (by decide)
  exact ⟨h.1, h.2.1, h.2.2.1, h.2.2.2.2⟩

/-- Claim C7 counterexample: for empty chapter text the call does return
`[]` with zero external calls, but it *does* write a file — the metadata
document is created (absent before, present with a completed empty record
afterwards), refuting "writes no files". -/
theorem c7_counterexample :
    (generate_illustrations_for_chapter
      ⟨SummarizeEnv.parsed [], fun _ => ImgResult.err "unused"⟩
      ⟨none, []⟩ 0 "" "" false 3).result = Except.ok [] ∧
    (generate_illustrations_for_chapter
      ⟨SummarizeEnv.parsed [], fun _ => ImgResult.err "unused"⟩
      ⟨none, []⟩ 0 "" "" false 3).textCalls = 0 ∧
    (generate_illustrations_for_chapter
      ⟨SummarizeEnv.parsed [], fun _ => ImgResult.err "unused"⟩
      ⟨none, []⟩ 0 "" "" false 3).imageCalls = 0 ∧
    (⟨none, []⟩ : FS).meta = none ∧
    (generate_illustrations_for_chapter
      ⟨SummarizeEnv.parsed [], fun _ => ImgResult.err "unused"⟩
      ⟨none, []⟩ 0 "" "" false 3).fs.meta =
      some [(0, ChapterData.record ⟨[], "completed", 2, none, none, none, none⟩)] :=
  ⟨rfl, rfl, rfl, rfl, rfl⟩

end Reader3
